import Mathlib

/-!
# Read/write lock with read precedence (`src/rwlock/rwlock.c`)

A shallow embedding of the eight operations of `rwlock.c`.

* The fields of `struct rwlock` are a Lean structure; the `size_t` counters are
  natural numbers on which `++` and `--` are computed modulo `SIZE_MAX + 1`.
* The C11 primitives (`mtx_*`, `cnd_*`) are not part of the repository.  Their
  return statuses are supplied by an `env`; every call made is recorded, with
  the fields of the lock at the moment of the call, in a log.
* `mtx_lock` on the plain (non recursive) internal mutex never returns while the
  mutex is held, and `cnd_wait` never returns when no wake-up is left: in both
  cases the operation has no result (`none`).
* A wake-up from `cnd_wait` hands back a status and the fields as other threads
  left them while the internal mutex was released.
* Of the demonstration workload (`src/rwlock/rwlock_example.c`) only the interval
  of a thread and the test made on it are embedded; the value `rand_r` returns
  is a parameter.
-/

namespace Multithreading

/-! ## Constants of the C library (values of glibc on Linux, LP64) -/

/-- The `thrd_success` enumerator of `<threads.h>`. -/
def thrd_success : Int := 0

/-- The `thrd_busy` enumerator of `<threads.h>`. -/
def thrd_busy : Int := 1

/-- The `thrd_error` enumerator of `<threads.h>`. -/
def thrd_error : Int := 2

/-- The `thrd_nomem` enumerator of `<threads.h>`. -/
def thrd_nomem : Int := 3

/-- The `EFAULT` constant of `<errno.h>`. -/
def EFAULT : Int := 14

/-- The `EINVAL` constant of `<errno.h>`. -/
def EINVAL : Int := 22

/-- The largest value of `size_t` (64 bit). -/
def SIZE_MAX : Nat := 18446744073709551615

/-- The sentinel `#define _RWLOCK_VALID 0xfacade` of `rwlock.h`. -/
def _RWLOCK_VALID : Nat := 0xfacade

/-- The `++` operator on a `size_t`. -/
def size_inc (n : Nat) : Nat := (n + 1) % (SIZE_MAX + 1)

/-- The `--` operator on a `size_t`. -/
def size_dec (n : Nat) : Nat := (n + SIZE_MAX) % (SIZE_MAX + 1)

/-! ## Data model -/

/-- The `struct rwlock` of `rwlock.h`.  The field `mutex` is the state of the
internal `mtx_t`: `true` while it is locked.  The two `cnd_t` carry no data. -/
structure rwlock where
  readerswait : Nat
  writerswait : Nat
  readersactive : Nat
  writersactive : Bool
  valid : Nat
  mutex : Bool
deriving DecidableEq, Repr

/-- The two condition variables of a lock: `rwl->read` and `rwl->write`. -/
inductive cnd where
  | read
  | write
deriving DecidableEq, Repr

/-- A call of a C11 primitive on a member of the lock. -/
inductive call where
  | mtx_init
  | mtx_destroy
  | mtx_lock
  | mtx_unlock
  | cnd_init (c : cnd)
  | cnd_destroy (c : cnd)
  | cnd_wait (c : cnd)
  | cnd_signal (c : cnd)
  | cnd_broadcast (c : cnd)
deriving DecidableEq, Repr

/-- One return of `cnd_wait`: its status and the fields of the lock as the other
threads left them while the caller was blocked. -/
structure wakeup where
  status : Int
  fields : rwlock
deriving DecidableEq, Repr

/-- The outcomes of the C11 primitives during one operation. -/
structure env where
  mtx_init_status : Int
  cnd_init_read_status : Int
  cnd_init_write_status : Int
  mtx_lock_status : Int
  mtx_unlock_status : Int
  cnd_signal_status : Int
  cnd_broadcast_status : Int
  wakeups : List wakeup
deriving DecidableEq, Repr

/-- The primitive calls of one operation, in order, each with the fields of the
lock at the moment of the call. -/
abbrev trace := List (call × rwlock)

/-- What an operation leaves behind when it returns: the returned `int`, the
storage behind the pointer (`none` for a null pointer) and the calls made. -/
structure result where
  status : Int
  rwl : Option rwlock
  log : trace
deriving DecidableEq, Repr

/-! ## The C11 primitives -/

/-- The call `mtx_lock(&rwl->mutex)`: it does not return while the mutex is held;
otherwise it returns the status of the environment and holds the mutex on success. -/
def mtx_lock (st : Int) (rwl : rwlock) : Option (Int × rwlock) :=
  if rwl.mutex then none
  else if st = thrd_success then some (st, { rwl with mutex := true })
  else some (st, rwl)

/-- The call `mtx_unlock(&rwl->mutex)`: the mutex is free again on success. -/
def mtx_unlock (st : Int) (rwl : rwlock) : Int × rwlock :=
  if st = thrd_success then (st, { rwl with mutex := false }) else (st, rwl)

/-- The fields after a return of `cnd_wait`: those the other threads left, with
the internal mutex in the state it had when the wait began. -/
def woken (w : wakeup) (rwl : rwlock) : rwlock :=
  { w.fields with mutex := rwl.mutex }

/-! ## The operations of `rwlock.c` -/

/-- The function `rwlock_init` (rwlock.c, lines 6-30). -/
def rwlock_init (e : env) : Option rwlock → Option result
  | none => some ⟨EFAULT, none, []⟩
  | some rwl0 =>
    let rwl1 := { rwl0 with readerswait := 0, writerswait := 0,
                            readersactive := 0, writersactive := false }
    let log1 : trace := [(call.mtx_init, rwl1)]
    if e.mtx_init_status ≠ thrd_success then some ⟨e.mtx_init_status, some rwl1, log1⟩
    else
      let rwl2 := { rwl1 with mutex := false }
      let log2 := log1 ++ [(call.cnd_init cnd.read, rwl2)]
      if e.cnd_init_read_status ≠ thrd_success then
        some ⟨e.cnd_init_read_status, some rwl2, log2 ++ [(call.mtx_destroy, rwl2)]⟩
      else
        let log3 := log2 ++ [(call.cnd_init cnd.write, rwl2)]
        if e.cnd_init_write_status ≠ thrd_success then
          some ⟨e.cnd_init_write_status, some rwl2,
                log3 ++ [(call.cnd_destroy cnd.read, rwl2), (call.mtx_destroy, rwl2)]⟩
        else
          some ⟨thrd_success, some { rwl2 with valid := _RWLOCK_VALID }, log3⟩

/-- The function `rwlock_destroy` (rwlock.c, lines 32-59). -/
def rwlock_destroy (e : env) : Option rwlock → Option result
  | none => some ⟨EFAULT, none, []⟩
  | some rwl =>
    if rwl.valid ≠ _RWLOCK_VALID then some ⟨EINVAL, some rwl, []⟩
    else
      match mtx_lock e.mtx_lock_status rwl with
      | none => none
      | some (status, rwl1) =>
        let log1 : trace := [(call.mtx_lock, rwl)]
        if status ≠ thrd_success then some ⟨status, some rwl1, log1⟩
        else if rwl1.readersactive > 0 || rwl1.writersactive then
          some ⟨thrd_busy, some (mtx_unlock e.mtx_unlock_status rwl1).2,
                log1 ++ [(call.mtx_unlock, rwl1)]⟩
        else if rwl1.readerswait > 0 || rwl1.writerswait > 0 then
          some ⟨thrd_busy, some (mtx_unlock e.mtx_unlock_status rwl1).2,
                log1 ++ [(call.mtx_unlock, rwl1)]⟩
        else
          let rwl2 := { rwl1 with valid := 0 }
          let u := mtx_unlock e.mtx_unlock_status rwl2
          let log2 := log1 ++ [(call.mtx_unlock, rwl2)]
          if u.1 ≠ thrd_success then some ⟨u.1, some u.2, log2⟩
          else
            some ⟨thrd_success, some u.2,
                  log2 ++ [(call.mtx_destroy, u.2), (call.cnd_destroy cnd.read, u.2),
                           (call.cnd_destroy cnd.write, u.2)]⟩

/-- The loop `while (rwl->writersactive) { status = cnd_wait(&rwl->read, ...);
if (status != thrd_success) break; }` of `rwlock_readlock`. -/
def readlock_wait : List wakeup → Int → rwlock → trace → Option (Int × rwlock × trace)
  | [], status, rwl, log => if rwl.writersactive then none else some (status, rwl, log)
  | w :: ws, status, rwl, log =>
    if rwl.writersactive then
      let log1 := log ++ [(call.cnd_wait cnd.read, rwl)]
      if w.status ≠ thrd_success then some (w.status, woken w rwl, log1)
      else readlock_wait ws w.status (woken w rwl) log1
    else some (status, rwl, log)

/-- The function `rwlock_readlock` (rwlock.c, lines 61-82). -/
def rwlock_readlock (e : env) : Option rwlock → Option result
  | none => some ⟨EFAULT, none, []⟩
  | some rwl =>
    if rwl.valid ≠ _RWLOCK_VALID then some ⟨EINVAL, some rwl, []⟩
    else
      match mtx_lock e.mtx_lock_status rwl with
      | none => none
      | some (status, rwl1) =>
        let log1 : trace := [(call.mtx_lock, rwl)]
        if status ≠ thrd_success then some ⟨status, some rwl1, log1⟩
        else
          let waited :=
            if rwl1.writersactive then
              match readlock_wait e.wakeups status
                      { rwl1 with readerswait := size_inc rwl1.readerswait } log1 with
              | none => none
              | some (st, rwl2, log2) =>
                some (st, { rwl2 with readerswait := size_dec rwl2.readerswait }, log2)
            else some (status, rwl1, log1)
          match waited with
          | none => none
          | some (status, rwl3, log3) =>
            let rwl4 := if status = thrd_success
              then { rwl3 with readersactive := size_inc rwl3.readersactive } else rwl3
            let u := mtx_unlock e.mtx_unlock_status rwl4
            let log4 := log3 ++ [(call.mtx_unlock, rwl4)]
            if u.1 ≠ thrd_success then some ⟨u.1, some u.2, log4⟩
            else some ⟨status, some u.2, log4⟩

/-- The function `rwlock_readtrylock` (rwlock.c, lines 84-97). -/
def rwlock_readtrylock (e : env) : Option rwlock → Option result
  | none => some ⟨EFAULT, none, []⟩
  | some rwl =>
    if rwl.valid ≠ _RWLOCK_VALID then some ⟨EINVAL, some rwl, []⟩
    else
      match mtx_lock e.mtx_lock_status rwl with
      | none => none
      | some (status, rwl1) =>
        let log1 : trace := [(call.mtx_lock, rwl)]
        if status ≠ thrd_success then some ⟨status, some rwl1, log1⟩
        else if !rwl1.writersactive then
          let rwl2 := { rwl1 with readersactive := size_inc rwl1.readersactive }
          let u := mtx_unlock e.mtx_unlock_status rwl2
          some ⟨u.1, some u.2, log1 ++ [(call.mtx_unlock, rwl2)]⟩
        else some ⟨thrd_busy, some rwl1, log1⟩

/-- The function `rwlock_readunlock` (rwlock.c, lines 99-113). -/
def rwlock_readunlock (e : env) : Option rwlock → Option result
  | none => some ⟨EFAULT, none, []⟩
  | some rwl =>
    if rwl.valid ≠ _RWLOCK_VALID then some ⟨EINVAL, some rwl, []⟩
    else
      match mtx_lock e.mtx_lock_status rwl with
      | none => none
      | some (status, rwl1) =>
        let log1 : trace := [(call.mtx_lock, rwl)]
        if status ≠ thrd_success then some ⟨status, some rwl1, log1⟩
        else
          let rwl2 := { rwl1 with readersactive := size_dec rwl1.readersactive }
          let signalled : Int × trace :=
            if rwl2.readersactive = 0 && rwl2.writerswait > 0 then
              (e.cnd_signal_status, log1 ++ [(call.cnd_signal cnd.write, rwl2)])
            else (status, log1)
          let u := mtx_unlock e.mtx_unlock_status rwl2
          let log3 := signalled.2 ++ [(call.mtx_unlock, rwl2)]
          if u.1 ≠ thrd_success then some ⟨u.1, some u.2, log3⟩
          else some ⟨signalled.1, some u.2, log3⟩

/-- The loop `while (rwl->readersactive > 0 || rwl->writersactive) { status =
cnd_wait(&rwl->write, ...); if (status != thrd_success) break; }` of
`rwlock_writelock`. -/
def writelock_wait : List wakeup → Int → rwlock → trace → Option (Int × rwlock × trace)
  | [], status, rwl, log =>
    if rwl.readersactive > 0 || rwl.writersactive then none else some (status, rwl, log)
  | w :: ws, status, rwl, log =>
    if rwl.readersactive > 0 || rwl.writersactive then
      let log1 := log ++ [(call.cnd_wait cnd.write, rwl)]
      if w.status ≠ thrd_success then some (w.status, woken w rwl, log1)
      else writelock_wait ws w.status (woken w rwl) log1
    else some (status, rwl, log)

/-- The function `rwlock_writelock` (rwlock.c, lines 115-136). -/
def rwlock_writelock (e : env) : Option rwlock → Option result
  | none => some ⟨EFAULT, none, []⟩
  | some rwl =>
    if rwl.valid ≠ _RWLOCK_VALID then some ⟨EINVAL, some rwl, []⟩
    else
      match mtx_lock e.mtx_lock_status rwl with
      | none => none
      | some (status, rwl1) =>
        let log1 : trace := [(call.mtx_lock, rwl)]
        if status ≠ thrd_success then some ⟨status, some rwl1, log1⟩
        else
          let waited :=
            if rwl1.readersactive > 0 || rwl1.writersactive then
              match writelock_wait e.wakeups status
                      { rwl1 with writerswait := size_inc rwl1.writerswait } log1 with
              | none => none
              | some (st, rwl2, log2) =>
                some (st, { rwl2 with writerswait := size_dec rwl2.writerswait }, log2)
            else some (status, rwl1, log1)
          match waited with
          | none => none
          | some (status, rwl3, log3) =>
            let rwl4 := if status = thrd_success
              then { rwl3 with writersactive := true } else rwl3
            let u := mtx_unlock e.mtx_unlock_status rwl4
            let log4 := log3 ++ [(call.mtx_unlock, rwl4)]
            if u.1 ≠ thrd_success then some ⟨u.1, some u.2, log4⟩
            else some ⟨status, some u.2, log4⟩

/-- The function `rwlock_writetrylock` (rwlock.c, lines 138-151). -/
def rwlock_writetrylock (e : env) : Option rwlock → Option result
  | none => some ⟨EFAULT, none, []⟩
  | some rwl =>
    if rwl.valid ≠ _RWLOCK_VALID then some ⟨EINVAL, some rwl, []⟩
    else
      match mtx_lock e.mtx_lock_status rwl with
      | none => none
      | some (status, rwl1) =>
        let log1 : trace := [(call.mtx_lock, rwl)]
        if status ≠ thrd_success then some ⟨status, some rwl1, log1⟩
        else if rwl1.readersactive = 0 && !rwl1.writersactive then
          let rwl2 := { rwl1 with writersactive := true }
          let u := mtx_unlock e.mtx_unlock_status rwl2
          some ⟨u.1, some u.2, log1 ++ [(call.mtx_unlock, rwl2)]⟩
        else some ⟨thrd_busy, some rwl1, log1⟩

/-- The function `rwlock_writeunlock` (rwlock.c, lines 153-176). -/
def rwlock_writeunlock (e : env) : Option rwlock → Option result
  | none => some ⟨EFAULT, none, []⟩
  | some rwl =>
    if rwl.valid ≠ _RWLOCK_VALID then some ⟨EINVAL, some rwl, []⟩
    else
      match mtx_lock e.mtx_lock_status rwl with
      | none => none
      | some (status, rwl1) =>
        let log1 : trace := [(call.mtx_lock, rwl)]
        if status ≠ thrd_success then some ⟨status, some rwl1, log1⟩
        else
          let rwl2 := { rwl1 with writersactive := false }
          let woke : Int × trace :=
            if rwl2.readerswait ≠ 0 then
              (e.cnd_broadcast_status, log1 ++ [(call.cnd_broadcast cnd.read, rwl2)])
            else if rwl2.writerswait ≠ 0 then
              (e.cnd_signal_status, log1 ++ [(call.cnd_signal cnd.write, rwl2)])
            else (status, log1)
          let u := mtx_unlock e.mtx_unlock_status rwl2
          let log3 := woke.2 ++ [(call.mtx_unlock, rwl2)]
          if u.1 ≠ thrd_success then some ⟨u.1, some u.2, log3⟩
          else some ⟨woke.1, some u.2, log3⟩

/-! ## Sequences of operations -/

/-- The eight operations of the interface. -/
inductive op where
  | init
  | destroy
  | readlock
  | readtrylock
  | readunlock
  | writelock
  | writetrylock
  | writeunlock
deriving DecidableEq, Repr

/-- One call of an operation of the interface. -/
def exec : op → env → Option rwlock → Option result
  | op.init => rwlock_init
  | op.destroy => rwlock_destroy
  | op.readlock => rwlock_readlock
  | op.readtrylock => rwlock_readtrylock
  | op.readunlock => rwlock_readunlock
  | op.writelock => rwlock_writelock
  | op.writetrylock => rwlock_writetrylock
  | op.writeunlock => rwlock_writeunlock

/-- The lock after a finite sequence of calls on the same storage, each with its
own environment; `none` when one of the calls never returns. -/
def run : List (op × env) → rwlock → Option rwlock
  | [], s => some s
  | (o, e) :: cs, s =>
    match exec o e (some s) with
    | none => none
    | some r =>
      match r.rwl with
      | none => none
      | some s1 => run cs s1

/-- An environment in which every primitive succeeds and `cnd_wait` is never
woken. -/
def env_ok : env :=
  ⟨thrd_success, thrd_success, thrd_success, thrd_success, thrd_success,
   thrd_success, thrd_success, []⟩

/-- Storage that was never initialized, all bytes zero. -/
def zeroed : rwlock := ⟨0, 0, 0, false, 0, false⟩

/-- The lock `rwlock_init` leaves in zeroed storage when every primitive
succeeds. -/
def fresh : rwlock := ⟨0, 0, 0, false, _RWLOCK_VALID, false⟩

/-- The property of mutual exclusion: no writer is active while readers are. -/
def mutual_exclusion (s : rwlock) : Prop :=
  ¬ (s.writersactive = true ∧ s.readersactive > 0)

instance (s : rwlock) : Decidable (mutual_exclusion s) := by
  unfold mutual_exclusion; infer_instance

/-- The primitives an operation called, in order. -/
def calls (r : result) : List call := r.log.map Prod.fst

/-- The calls that destroy a primitive of the lock. -/
def destroys (c : call) : Bool :=
  match c with
  | call.mtx_destroy => true
  | call.cnd_destroy _ => true
  | _ => false

/-- The discipline of a sequence of calls started in `s`: `rwlock_readunlock` is
called only while a reader is active, and the fields a wake-up from `cnd_wait`
hands back satisfy mutual exclusion. -/
def well_used : List (op × env) → rwlock → Bool
  | [], _ => true
  | (o, e) :: cs, s =>
    (o != op.readunlock || decide (0 < s.readersactive)) &&
    e.wakeups.all (fun w => decide (mutual_exclusion w.fields)) &&
    match exec o e (some s) with
    | none => true
    | some r =>
      match r.rwl with
      | none => true
      | some s1 => well_used cs s1

/-- The lock is refused by every operation other than `rwlock_init`: each
returns `EINVAL`, calls no primitive and leaves every field as it is. -/
def rejected (s : rwlock) : Prop :=
  ∀ (o : op) (e : env), o ≠ op.init → exec o e (some s) = some ⟨EINVAL, some s, []⟩

/-- The `RAND_MAX` of `<stdlib.h>` (glibc); `rand_r` returns a value between 0
and `RAND_MAX`. -/
def RAND_MAX : Nat := 2147483647

/-- The interval `main` gives a thread, `rand_r(&seed) % 71`
(rwlock_example.c, line 80), for the value `v` that `rand_r` returned. -/
def interval (v : Nat) : Nat := v % 71

/-- The test `!(i % self->interval)` of `thread_routine` (rwlock_example.c,
line 36) for the interval `n`; the remainder of a division by 0 is undefined,
which is `none`. -/
def update_due (i n : Nat) : Option Bool :=
  if n = 0 then none else some (i % n == 0)

/-! ## Mutual exclusion is preserved by every operation -/

theorem readlock_wait_me (ws : List wakeup) :
    ∀ (st : Int) (rwl : rwlock) (log : trace) (st1 : Int) (rwl1 : rwlock) (log1 : trace),
      (∀ w ∈ ws, mutual_exclusion w.fields) → mutual_exclusion rwl →
      readlock_wait ws st rwl log = some (st1, rwl1, log1) →
      mutual_exclusion rwl1 ∧ (st1 = thrd_success → rwl1.writersactive = false) := by
  induction ws with
  | nil =>
    intro st rwl log st1 rwl1 log1 _ hme h
    cases hwa : rwl.writersactive <;> simp [readlock_wait, hwa] at h
    obtain ⟨-, rfl, -⟩ := h
    exact ⟨hme, fun _ => hwa⟩
  | cons w ws ih =>
    intro st rwl log st1 rwl1 log1 hws hme h
    have hw : mutual_exclusion (woken w rwl) := by
      have := hws w (List.mem_cons_self _ _)
      simpa [mutual_exclusion, woken] using this
    cases hwa : rwl.writersactive <;> simp only [readlock_wait, hwa] at h
    · simp at h
      obtain ⟨-, rfl, -⟩ := h
      exact ⟨hme, fun _ => hwa⟩
    · by_cases hst : w.status = thrd_success
      · simp [hst] at h
        exact ih _ _ _ _ _ _ (fun v hv => hws v (List.mem_cons_of_mem _ hv)) hw (by simpa [hst] using h)
      · simp [hst] at h
        obtain ⟨rfl, rfl, -⟩ := h
        exact ⟨hw, fun h1 => absurd h1 hst⟩

theorem writelock_wait_me (ws : List wakeup) :
    ∀ (st : Int) (rwl : rwlock) (log : trace) (st1 : Int) (rwl1 : rwlock) (log1 : trace),
      (∀ w ∈ ws, mutual_exclusion w.fields) → mutual_exclusion rwl →
      writelock_wait ws st rwl log = some (st1, rwl1, log1) →
      mutual_exclusion rwl1 ∧
        (st1 = thrd_success → rwl1.readersactive = 0 ∧ rwl1.writersactive = false) := by
  induction ws with
  | nil =>
    intro st rwl log st1 rwl1 log1 _ hme h
    by_cases hc : (decide (rwl.readersactive > 0) || rwl.writersactive) = true <;>
      simp only [writelock_wait, hc] at h
    · simp at h
    · simp at h
      obtain ⟨-, rfl, -⟩ := h
      refine ⟨hme, fun _ => ?_⟩
      simpa using hc
  | cons w ws ih =>
    intro st rwl log st1 rwl1 log1 hws hme h
    have hw : mutual_exclusion (woken w rwl) := by
      have := hws w (List.mem_cons_self _ _)
      simpa [mutual_exclusion, woken] using this
    by_cases hc : (decide (rwl.readersactive > 0) || rwl.writersactive) = true <;>
      simp only [writelock_wait, hc] at h
    · by_cases hst : w.status = thrd_success
      · simp [hst] at h
        exact ih _ _ _ _ _ _ (fun v hv => hws v (List.mem_cons_of_mem _ hv)) hw (by simpa [hst] using h)
      · simp [hst] at h
        obtain ⟨rfl, rfl, -⟩ := h
        exact ⟨hw, fun h1 => absurd h1 hst⟩
    · simp at h
      obtain ⟨-, rfl, -⟩ := h
      refine ⟨hme, fun _ => ?_⟩
      simpa using hc

theorem readtrylock_me (e : env) (s s1 : rwlock) (r : result) (h : mutual_exclusion s)
    (hr : rwlock_readtrylock e (some s) = some r) (hs : r.rwl = some s1) :
    mutual_exclusion s1 := by
  rcases s with ⟨rw, ww, ra, wa, v, m⟩
  by_cases hv : v = _RWLOCK_VALID <;> by_cases hl : e.mtx_lock_status = thrd_success <;>
    by_cases hu : e.mtx_unlock_status = thrd_success <;> cases m <;> cases wa <;>
    simp [rwlock_readtrylock, mtx_lock, mtx_unlock, hv, hl, hu] at hr <;>
    subst hr <;> simp at hs <;> subst hs <;> simp_all [mutual_exclusion]

theorem readunlock_me (e : env) (s s1 : rwlock) (r : result) (h : mutual_exclusion s)
    (hg : 0 < s.readersactive)
    (hr : rwlock_readunlock e (some s) = some r) (hs : r.rwl = some s1) :
    mutual_exclusion s1 := by
  rcases s with ⟨rw, ww, ra, wa, v, m⟩
  by_cases hv : v = _RWLOCK_VALID <;> by_cases hl : e.mtx_lock_status = thrd_success <;>
    by_cases hu : e.mtx_unlock_status = thrd_success <;> cases m <;> cases wa <;>
    simp [rwlock_readunlock, mtx_lock, mtx_unlock, hv, hl, hu] at hr <;>
    subst hr <;> simp at hs <;> subst hs <;> simp_all [mutual_exclusion]

theorem readlock_me (e : env) (s s1 : rwlock) (r : result) (h : mutual_exclusion s)
    (hws : ∀ w ∈ e.wakeups, mutual_exclusion w.fields)
    (hr : rwlock_readlock e (some s) = some r) (hs : r.rwl = some s1) :
    mutual_exclusion s1 := by
  rcases s with ⟨rw, ww, ra, wa, v, m⟩
  by_cases hv : v = _RWLOCK_VALID <;> by_cases hl : e.mtx_lock_status = thrd_success <;>
    by_cases hu : e.mtx_unlock_status = thrd_success <;> cases m <;> cases wa <;>
    simp [rwlock_readlock, mtx_lock, mtx_unlock, hv, hl, hu] at hr
  all_goals first
    | (subst hr; simp at hs; subst hs; simp_all [mutual_exclusion])
    | skip
  all_goals
    generalize hloop : readlock_wait _ _ _ _ = o at hr
    rcases o with _ | ⟨st, rwl2, log2⟩
    · simp at hr
    · have hme := readlock_wait_me _ _ _ _ _ _ _ hws (by simpa [mutual_exclusion] using h) hloop
      simp at hr
      subst hr
      simp at hs
      subst hs
      by_cases hst : st = thrd_success
      · have := hme.2 hst
        simp [mutual_exclusion, hst, this]
      · simpa [mutual_exclusion, hst] using hme.1

theorem writelock_me (e : env) (s s1 : rwlock) (r : result) (h : mutual_exclusion s)
    (hws : ∀ w ∈ e.wakeups, mutual_exclusion w.fields)
    (hr : rwlock_writelock e (some s) = some r) (hs : r.rwl = some s1) :
    mutual_exclusion s1 := by
  rcases s with ⟨rw, ww, ra, wa, v, m⟩
  by_cases hc : 0 < ra ∨ wa = true <;>
  by_cases hv : v = _RWLOCK_VALID <;> by_cases hl : e.mtx_lock_status = thrd_success <;>
    by_cases hu : e.mtx_unlock_status = thrd_success <;> cases m <;>
    simp [rwlock_writelock, mtx_lock, mtx_unlock, hv, hl, hu, hc] at hr
  all_goals first
    | (subst hr; simp at hs; subst hs; simp_all [mutual_exclusion])
    | skip
  all_goals
    generalize hloop : writelock_wait _ _ _ _ = o at hr
    rcases o with _ | ⟨st, rwl2, log2⟩
    · simp at hr
    · have hme := writelock_wait_me _ _ _ _ _ _ _ hws (by simpa [mutual_exclusion] using h) hloop
      simp at hr
      subst hr
      simp at hs
      subst hs
      by_cases hst : st = thrd_success
      · have := hme.2 hst
        simp [mutual_exclusion, hst, this]
      · simpa [mutual_exclusion, hst] using hme.1

theorem writetrylock_me (e : env) (s s1 : rwlock) (r : result) (h : mutual_exclusion s)
    (hr : rwlock_writetrylock e (some s) = some r) (hs : r.rwl = some s1) :
    mutual_exclusion s1 := by
  rcases s with ⟨rw, ww, ra, wa, v, m⟩
  by_cases hc : ra = 0 <;>
  by_cases hv : v = _RWLOCK_VALID <;> by_cases hl : e.mtx_lock_status = thrd_success <;>
    by_cases hu : e.mtx_unlock_status = thrd_success <;> cases m <;> cases wa <;>
    simp [rwlock_writetrylock, mtx_lock, mtx_unlock, hv, hl, hu, hc] at hr <;>
    subst hr <;> simp at hs <;> subst hs <;> simp_all [mutual_exclusion]

theorem writeunlock_me (e : env) (s s1 : rwlock) (r : result) (h : mutual_exclusion s)
    (hr : rwlock_writeunlock e (some s) = some r) (hs : r.rwl = some s1) :
    mutual_exclusion s1 := by
  rcases s with ⟨rw, ww, ra, wa, v, m⟩
  by_cases hv : v = _RWLOCK_VALID <;> by_cases hl : e.mtx_lock_status = thrd_success <;>
    by_cases hu : e.mtx_unlock_status = thrd_success <;> cases m <;> cases wa <;>
    simp [rwlock_writeunlock, mtx_lock, mtx_unlock, hv, hl, hu] at hr <;>
    subst hr <;> simp at hs <;> subst hs <;> simp_all [mutual_exclusion]

theorem destroy_me (e : env) (s s1 : rwlock) (r : result) (h : mutual_exclusion s)
    (hr : rwlock_destroy e (some s) = some r) (hs : r.rwl = some s1) :
    mutual_exclusion s1 := by
  rcases s with ⟨rw, ww, ra, wa, v, m⟩
  by_cases hc : 0 < ra <;> by_cases hc2 : 0 < rw ∨ 0 < ww <;>
  by_cases hv : v = _RWLOCK_VALID <;> by_cases hl : e.mtx_lock_status = thrd_success <;>
    by_cases hu : e.mtx_unlock_status = thrd_success <;> cases m <;> cases wa <;>
    simp [rwlock_destroy, mtx_lock, mtx_unlock, hv, hl, hu, hc, hc2] at hr <;>
    subst hr <;> simp at hs <;> subst hs <;> simp_all [mutual_exclusion]

theorem init_me (e : env) (s s1 : rwlock) (r : result)
    (hr : rwlock_init e (some s) = some r) (hs : r.rwl = some s1) :
    mutual_exclusion s1 := by
  rcases s with ⟨rw, ww, ra, wa, v, m⟩
  by_cases h1 : e.mtx_init_status = thrd_success <;>
    by_cases h2 : e.cnd_init_read_status = thrd_success <;>
    by_cases h3 : e.cnd_init_write_status = thrd_success <;>
    simp [rwlock_init, h1, h2, h3] at hr <;>
    subst hr <;> simp at hs <;> subst hs <;> simp [mutual_exclusion]

theorem exec_me (o : op) (e : env) (s s1 : rwlock) (r : result) (h : mutual_exclusion s)
    (hg : o = op.readunlock → 0 < s.readersactive)
    (hws : ∀ w ∈ e.wakeups, mutual_exclusion w.fields)
    (hr : exec o e (some s) = some r) (hs : r.rwl = some s1) : mutual_exclusion s1 := by
  cases o <;> simp only [exec] at hr
  · exact init_me e s s1 r hr hs
  · exact destroy_me e s s1 r h hr hs
  · exact readlock_me e s s1 r h hws hr hs
  · exact readtrylock_me e s s1 r h hr hs
  · exact readunlock_me e s s1 r h (hg rfl) hr hs
  · exact writelock_me e s s1 r h hws hr hs
  · exact writetrylock_me e s s1 r h hr hs
  · exact writeunlock_me e s s1 r h hr hs

theorem run_me (calls : List (op × env)) :
    ∀ (s1 s : rwlock), mutual_exclusion s1 → well_used calls s1 = true →
      run calls s1 = some s → mutual_exclusion s := by
  induction calls with
  | nil =>
    intro s1 s h _ hrun
    simp [run] at hrun
    exact hrun ▸ h
  | cons c cs ih =>
    intro s1 s h hused hrun
    obtain ⟨o, e⟩ := c
    simp only [run] at hrun
    simp only [well_used, Bool.and_eq_true, Bool.or_eq_true, bne_iff_ne, ne_eq,
      decide_eq_true_eq, List.all_eq_true] at hused
    obtain ⟨⟨hg, hws⟩, hrest⟩ := hused
    cases hx : exec o e (some s1) with
    | none => simp [hx] at hrun
    | some r =>
      simp only [hx] at hrun hrest
      cases hs : r.rwl with
      | none => simp [hs] at hrun
      | some s2 =>
        simp only [hs] at hrun hrest
        refine ih s2 s (exec_me o e s1 s2 r h ?_ hws hx hs) hrest hrun
        intro ho
        rcases hg with hg | hg
        · exact absurd ho hg
        · exact hg

/-! ## The waiting loop of `rwlock_readlock` -/

theorem woken_woken (p q : wakeup) (rwl : rwlock) : woken p (woken q rwl) = woken p rwl := rfl

theorem readlock_wait_free (ws : List wakeup) (st : Int) (rwl : rwlock) (log : trace)
    (h : rwl.writersactive = false) : readlock_wait ws st rwl log = some (st, rwl, log) := by
  cases ws <;> simp [readlock_wait, h]

theorem readlock_wait_blocked (ws : List wakeup) :
    ∀ (st : Int) (rwl : rwlock) (log : trace), rwl.writersactive = true →
      (∀ p ∈ ws, p.status = thrd_success ∧ p.fields.writersactive = true) →
      readlock_wait ws st rwl log = none := by
  induction ws with
  | nil => intro st rwl log h _; simp [readlock_wait, h]
  | cons p ps ih =>
    intro st rwl log h hps
    have hp := hps p (List.mem_cons_self _ _)
    simp only [readlock_wait, h, hp.1, if_true, ne_eq, not_true_eq_false, if_false]
    exact ih _ _ _ hp.2 (fun q hq => hps q (List.mem_cons_of_mem _ hq))

theorem readlock_wait_spec (pre : List wakeup) :
    ∀ (st : Int) (rwl : rwlock) (log : trace) (w : wakeup) (post : List wakeup),
      rwl.writersactive = true →
      (∀ p ∈ pre, p.status = thrd_success ∧ p.fields.writersactive = true) →
      (w.status ≠ thrd_success ∨ w.fields.writersactive = false) →
      readlock_wait (pre ++ w :: post) st rwl log =
        some (w.status, woken w rwl,
          log ++ (call.cnd_wait cnd.read, rwl) ::
            pre.map (fun p => (call.cnd_wait cnd.read, woken p rwl))) := by
  induction pre with
  | nil =>
    intro st rwl log w post h _ hw
    by_cases hst : w.status = thrd_success
    · have hwa : (woken w rwl).writersactive = false := by
        rcases hw with hw | hw
        · exact absurd hst hw
        · exact hw
      simp only [List.nil_append, readlock_wait, h, hst, if_true, ne_eq, not_true_eq_false,
        if_false, List.map_nil]
      rw [readlock_wait_free _ _ _ _ hwa]
    · simp [readlock_wait, h, hst]
  | cons p ps ih =>
    intro st rwl log w post h hps hw
    have hp := hps p (List.mem_cons_self _ _)
    simp only [List.cons_append, readlock_wait, h, hp.1, if_true, ne_eq, not_true_eq_false,
      if_false]
    have hrec := ih thrd_success (woken p rwl) (log ++ [(call.cnd_wait cnd.read, rwl)]) w post
      hp.2 (fun q hq => hps q (List.mem_cons_of_mem _ hq)) hw
    show readlock_wait (ps ++ w :: post) thrd_success (woken p rwl)
      (log ++ [(call.cnd_wait cnd.read, rwl)]) = _
    rw [hrec]
    simp [woken_woken]

/-! ## The waiting loop of `rwlock_writelock` -/

theorem writelock_wait_free (ws : List wakeup) (st : Int) (rwl : rwlock) (log : trace)
    (hra : rwl.readersactive = 0) (hwa : rwl.writersactive = false) :
    writelock_wait ws st rwl log = some (st, rwl, log) := by
  cases ws <;> simp [writelock_wait, hra, hwa]

theorem writelock_wait_blocked (ws : List wakeup) :
    ∀ (st : Int) (rwl : rwlock) (log : trace),
      (0 < rwl.readersactive ∨ rwl.writersactive = true) →
      (∀ p ∈ ws, p.status = thrd_success ∧
        (0 < p.fields.readersactive ∨ p.fields.writersactive = true)) →
      writelock_wait ws st rwl log = none := by
  induction ws with
  | nil => intro st rwl log h _; simp [writelock_wait, h]
  | cons p ps ih =>
    intro st rwl log h hps
    have hp := hps p (List.mem_cons_self _ _)
    have hc : (decide (rwl.readersactive > 0) || rwl.writersactive) = true := by simpa using h
    simp only [writelock_wait, hc, hp.1, if_true, ne_eq, not_true_eq_false, if_false]
    exact ih _ _ _ hp.2 (fun q hq => hps q (List.mem_cons_of_mem _ hq))

theorem writelock_wait_spec (pre : List wakeup) :
    ∀ (st : Int) (rwl : rwlock) (log : trace) (w : wakeup) (post : List wakeup),
      (0 < rwl.readersactive ∨ rwl.writersactive = true) →
      (∀ p ∈ pre, p.status = thrd_success ∧
        (0 < p.fields.readersactive ∨ p.fields.writersactive = true)) →
      (w.status ≠ thrd_success ∨
        (w.fields.readersactive = 0 ∧ w.fields.writersactive = false)) →
      writelock_wait (pre ++ w :: post) st rwl log =
        some (w.status, woken w rwl,
          log ++ (call.cnd_wait cnd.write, rwl) ::
            pre.map (fun p => (call.cnd_wait cnd.write, woken p rwl))) := by
  induction pre with
  | nil =>
    intro st rwl log w post h _ hw
    have hc : (decide (rwl.readersactive > 0) || rwl.writersactive) = true := by simpa using h
    by_cases hst : w.status = thrd_success
    · have hwf : w.fields.readersactive = 0 ∧ w.fields.writersactive = false := by
        rcases hw with hw | hw
        · exact absurd hst hw
        · exact hw
      simp only [List.nil_append, writelock_wait, hc, hst, if_true, ne_eq, not_true_eq_false,
        if_false, List.map_nil]
      exact writelock_wait_free _ _ (woken w rwl) _ hwf.1 hwf.2
    · simp [writelock_wait, h, hst]
  | cons p ps ih =>
    intro st rwl log w post h hps hw
    have hc : (decide (rwl.readersactive > 0) || rwl.writersactive) = true := by simpa using h
    have hp := hps p (List.mem_cons_self _ _)
    simp only [List.cons_append, writelock_wait, hc, hp.1, if_true, ne_eq, not_true_eq_false,
      if_false]
    have hrec := ih thrd_success (woken p rwl) (log ++ [(call.cnd_wait cnd.write, rwl)]) w post
      hp.2 (fun q hq => hps q (List.mem_cons_of_mem _ hq)) hw
    show writelock_wait (ps ++ w :: post) thrd_success (woken p rwl)
      (log ++ [(call.cnd_wait cnd.write, rwl)]) = _
    rw [hrec]
    simp [woken_woken]

/-! ## Validation -/

theorem rejected_of_not_live (s : rwlock) (h : s.valid ≠ _RWLOCK_VALID) : rejected s := by
  intro o e ho
  cases o <;>
    first
    | exact absurd rfl ho
    | simp [exec, rwlock_destroy, rwlock_readlock, rwlock_readtrylock, rwlock_readunlock,
        rwlock_writelock, rwlock_writetrylock, rwlock_writeunlock, h]

/-! ## Counters under disciplined use -/

theorem readlock_wait_calls (ws : List wakeup) :
    ∀ (st : Int) (rwl : rwlock) (log : trace) (st1 : Int) (rwl1 : rwlock) (log1 : trace),
      readlock_wait ws st rwl log = some (st1, rwl1, log1) →
      rwl1.mutex = rwl.mutex ∧
      ∃ k, log1.map Prod.fst = log.map Prod.fst ++ List.replicate k (call.cnd_wait cnd.read) := by
  induction ws with
  | nil =>
    intro st rwl log st1 rwl1 log1 h
    cases hwa : rwl.writersactive <;> simp [readlock_wait, hwa] at h
    obtain ⟨-, rfl, rfl⟩ := h
    exact ⟨rfl, 0, by simp⟩
  | cons w ws ih =>
    intro st rwl log st1 rwl1 log1 h
    cases hwa : rwl.writersactive <;> simp only [readlock_wait, hwa] at h
    · simp at h
      obtain ⟨-, rfl, rfl⟩ := h
      exact ⟨rfl, 0, by simp⟩
    · by_cases hst : w.status = thrd_success
      · simp [hst] at h
        obtain ⟨hm, k, hk⟩ := ih _ _ _ _ _ _ h
        refine ⟨hm, k + 1, ?_⟩
        rw [hk]
        simp [List.replicate_succ]
      · simp [hst] at h
        obtain ⟨-, rfl, rfl⟩ := h
        exact ⟨rfl, 1, by simp⟩

theorem writelock_wait_calls (ws : List wakeup) :
    ∀ (st : Int) (rwl : rwlock) (log : trace) (st1 : Int) (rwl1 : rwlock) (log1 : trace),
      writelock_wait ws st rwl log = some (st1, rwl1, log1) →
      rwl1.mutex = rwl.mutex ∧
      ∃ k, log1.map Prod.fst =
        log.map Prod.fst ++ List.replicate k (call.cnd_wait cnd.write) := by
  induction ws with
  | nil =>
    intro st rwl log st1 rwl1 log1 h
    by_cases hc : 0 < rwl.readersactive ∨ rwl.writersactive = true <;>
      simp [writelock_wait, hc] at h
    obtain ⟨-, rfl, rfl⟩ := h
    exact ⟨rfl, 0, by simp⟩
  | cons w ws ih =>
    intro st rwl log st1 rwl1 log1 h
    by_cases hc : 0 < rwl.readersactive ∨ rwl.writersactive = true
    · by_cases hst : w.status = thrd_success
      · simp [writelock_wait, hc, hst] at h
        obtain ⟨hm, k, hk⟩ := ih _ _ _ _ _ _ h
        refine ⟨hm, k + 1, ?_⟩
        rw [hk]
        simp [List.replicate_succ]
      · simp [writelock_wait, hc, hst] at h
        obtain ⟨-, rfl, rfl⟩ := h
        exact ⟨rfl, 1, by simp⟩
    · simp [writelock_wait, hc] at h
      obtain ⟨-, rfl, rfl⟩ := h
      exact ⟨rfl, 0, by simp⟩

/-- A list of calls that starts with `mtx_lock`, ends with `mtx_unlock` and has
only waits on one condition in between. -/
theorem balanced_waits (k : Nat) (c : cnd) :
    (call.mtx_lock :: (List.replicate k (call.cnd_wait c) ++ [call.mtx_unlock])).count
        call.mtx_unlock = 1 ∧
    (call.mtx_lock :: (List.replicate k (call.cnd_wait c) ++ [call.mtx_unlock])).count
        call.mtx_lock = 1 ∧
    (call.mtx_lock :: (List.replicate k (call.cnd_wait c) ++ [call.mtx_unlock])).getLast?
      = some call.mtx_unlock := by
  refine ⟨?_, ?_, ?_⟩
  · simp [List.count_cons, List.count_replicate]
  · simp [List.count_cons, List.count_replicate]
  · rw [← List.cons_append, List.getLast?_append]
    simp

/-! ## Increment then decrement -/

theorem size_dec_inc (n : Nat) (h : n ≤ SIZE_MAX) : size_dec (size_inc n) = n := by
  unfold size_dec size_inc
  by_cases hn : n = SIZE_MAX
  · subst hn
    decide
  · have h1 : (n + 1) % (SIZE_MAX + 1) = n + 1 := Nat.mod_eq_of_lt (by omega)
    rw [h1]
    have h2 : n + 1 + SIZE_MAX = n + 1 * (SIZE_MAX + 1) := by omega
    rw [h2, Nat.add_mul_mod_self_right]
    exact Nat.mod_eq_of_lt (by omega)

/-! ## The claims -/

/-- C1, counterexample: after `rwlock_init`, a successful `rwlock_writetrylock`
followed by `rwlock_readunlock` leaves a writer active and `SIZE_MAX` readers
active. -/
theorem mutual_exclusion_counterexample :
    (∃ log, rwlock_init env_ok (some zeroed) = some ⟨thrd_success, some fresh, log⟩) ∧
    run [(op.writetrylock, env_ok), (op.readunlock, env_ok)] fresh
      = some ⟨0, 0, SIZE_MAX, true, _RWLOCK_VALID, false⟩ ∧
    ¬ mutual_exclusion ⟨0, 0, SIZE_MAX, true, _RWLOCK_VALID, false⟩ :=
  ⟨⟨_, rfl⟩, by decide, by decide⟩

/-- C1, as amended: in every state reached from a freshly initialized lock by a
finite sequence of the eight operations in which `rwlock_readunlock` is called
only while `readersactive > 0` and every wake-up from `cnd_wait` hands back
fields that satisfy mutual exclusion, `writersactive` and `readersactive > 0`
never hold together. -/
theorem mutual_exclusion_reachable (e0 : env) (s0 s1 s : rwlock) (log : trace)
    (calls : List (op × env))
    (hinit : rwlock_init e0 (some s0) = some ⟨thrd_success, some s1, log⟩)
    (hused : well_used calls s1 = true) (hrun : run calls s1 = some s) :
    mutual_exclusion s :=
  run_me calls s1 s (init_me e0 s0 s1 _ hinit rfl) hused hrun

/-- C1, witness: a read, a write and a blocking read section after `rwlock_init`. -/
theorem mutual_exclusion_reachable_witness :
    well_used [(op.readtrylock, env_ok), (op.readunlock, env_ok), (op.writetrylock, env_ok),
      (op.writeunlock, env_ok), (op.readlock, env_ok)] fresh = true ∧
    run [(op.readtrylock, env_ok), (op.readunlock, env_ok), (op.writetrylock, env_ok),
      (op.writeunlock, env_ok), (op.readlock, env_ok)] fresh
      = some ⟨0, 0, 1, false, _RWLOCK_VALID, false⟩ ∧
    mutual_exclusion ⟨0, 0, 1, false, _RWLOCK_VALID, false⟩ :=
  ⟨by decide, by decide,
   mutual_exclusion_reachable env_ok zeroed fresh _ _
    [(op.readtrylock, env_ok), (op.readunlock, env_ok), (op.writetrylock, env_ok),
     (op.writeunlock, env_ok), (op.readlock, env_ok)] rfl (by decide) (by decide)⟩

/-- C2, counterexample: `rwlock_readunlock` on a fresh lock leaves
`readersactive = SIZE_MAX`; on that live lock, with no writer active,
`rwlock_readtrylock` returns `thrd_success` and `readersactive` is 0 afterwards,
which is not the value before plus one. -/
theorem readtrylock_counterexample :
    run [(op.readunlock, env_ok)] fresh = some ⟨0, 0, SIZE_MAX, false, _RWLOCK_VALID, false⟩ ∧
    (rwlock_readtrylock env_ok (some ⟨0, 0, SIZE_MAX, false, _RWLOCK_VALID, false⟩)).map
        (fun r => (r.status, r.rwl))
      = some (thrd_success, some ⟨0, 0, 0, false, _RWLOCK_VALID, false⟩) ∧
    (0 : Nat) ≠ SIZE_MAX + 1 :=
  ⟨by decide, by decide, by decide⟩

/-- C2, as amended: on a live lock, with the calls on the internal mutex
succeeding, `rwlock_readtrylock` returns `thrd_busy` exactly when `writersactive`
is set on entry; otherwise it returns `thrd_success`, `readersactive` is
incremented modulo `SIZE_MAX + 1` (by exactly one below `SIZE_MAX`, to 0 from
`SIZE_MAX`) and every other field is as before. -/
theorem readtrylock_correct (e : env) (rwl : rwlock)
    (hlive : rwl.valid = _RWLOCK_VALID) (hfree : rwl.mutex = false)
    (hlock : e.mtx_lock_status = thrd_success)
    (hunlock : e.mtx_unlock_status = thrd_success) :
    ∃ r, rwlock_readtrylock e (some rwl) = some r ∧
      (r.status = thrd_busy ↔ rwl.writersactive = true) ∧
      (rwl.writersactive = false →
        r.status = thrd_success ∧
        r.rwl = some { rwl with readersactive := (rwl.readersactive + 1) % (SIZE_MAX + 1) } ∧
        (rwl.readersactive < SIZE_MAX →
          r.rwl = some { rwl with readersactive := rwl.readersactive + 1 })) := by
  rcases rwl with ⟨rw, ww, ra, wa, v, m⟩
  simp only at hlive hfree
  subst hlive hfree
  cases wa
  · refine ⟨_, by simp [rwlock_readtrylock, mtx_lock, mtx_unlock, hlock, hunlock]; rfl, ?_, ?_⟩
    · simp [thrd_success, thrd_busy]
    · intro _
      refine ⟨rfl, by simp [size_inc], fun hlt => ?_⟩
      simp only at hlt
      have : (ra + 1) % (SIZE_MAX + 1) = ra + 1 := Nat.mod_eq_of_lt (by omega)
      simp [size_inc, this]
  · refine ⟨_, by simp [rwlock_readtrylock, mtx_lock, mtx_unlock, hlock]; rfl, ?_, ?_⟩
    · simp
    · simp

/-- C2, witness: a fresh lock, every primitive succeeding. -/
theorem readtrylock_correct_witness :
    (fresh.valid = _RWLOCK_VALID ∧ fresh.mutex = false ∧
      env_ok.mtx_lock_status = thrd_success ∧ env_ok.mtx_unlock_status = thrd_success) ∧
    ∃ r, rwlock_readtrylock env_ok (some fresh) = some r ∧
      (r.status = thrd_busy ↔ fresh.writersactive = true) ∧
      (fresh.writersactive = false →
        r.status = thrd_success ∧
        r.rwl = some { fresh with
          readersactive := (fresh.readersactive + 1) % (SIZE_MAX + 1) } ∧
        (fresh.readersactive < SIZE_MAX →
          r.rwl = some { fresh with readersactive := fresh.readersactive + 1 })) :=
  ⟨⟨rfl, rfl, rfl, rfl⟩, readtrylock_correct env_ok fresh rfl rfl rfl rfl⟩

/-- C3: on a live lock, with the calls on the internal mutex succeeding,
`rwlock_writetrylock` returns `thrd_busy` exactly when `readersactive > 0` or
`writersactive` holds on entry; otherwise it returns `thrd_success` with
`writersactive` set and every other field as before; and after a successful
call a second `rwlock_writetrylock` returns `thrd_busy`. -/
theorem writetrylock_correct (e : env) (rwl : rwlock)
    (hlive : rwl.valid = _RWLOCK_VALID) (hfree : rwl.mutex = false)
    (hlock : e.mtx_lock_status = thrd_success)
    (hunlock : e.mtx_unlock_status = thrd_success) :
    ∃ r, rwlock_writetrylock e (some rwl) = some r ∧
      (r.status = thrd_busy ↔ (0 < rwl.readersactive ∨ rwl.writersactive = true)) ∧
      (¬ (0 < rwl.readersactive ∨ rwl.writersactive = true) →
        r.status = thrd_success ∧ r.rwl = some { rwl with writersactive := true }) ∧
      (r.status = thrd_success → ∀ e2 : env, e2.mtx_lock_status = thrd_success →
        ∃ r2, rwlock_writetrylock e2 r.rwl = some r2 ∧ r2.status = thrd_busy) := by
  rcases rwl with ⟨rw, ww, ra, wa, v, m⟩
  simp only at hlive hfree
  subst hlive hfree
  by_cases hra : ra = 0
  · subst hra
    cases wa
    · refine ⟨_, by simp [rwlock_writetrylock, mtx_lock, mtx_unlock, hlock, hunlock]; rfl,
        ?_, ?_, ?_⟩
      · simp [thrd_success, thrd_busy]
      · intro _; exact ⟨rfl, rfl⟩
      · intro _ e2 h2
        exact ⟨_, by simp [rwlock_writetrylock, mtx_lock, h2]; rfl, rfl⟩
    · refine ⟨_, by simp [rwlock_writetrylock, mtx_lock, hlock]; rfl, ?_, ?_, ?_⟩
      · simp
      · simp
      · simp [thrd_success, thrd_busy]
  · refine ⟨_, by simp [rwlock_writetrylock, mtx_lock, hlock, hra]; rfl, ?_, ?_, ?_⟩
    · simp; left; omega
    · intro h; exact absurd (Or.inl (Nat.pos_of_ne_zero hra)) h
    · simp [thrd_success, thrd_busy]

/-- C3, witness: a fresh lock, every primitive succeeding. -/
theorem writetrylock_correct_witness :
    (fresh.valid = _RWLOCK_VALID ∧ fresh.mutex = false ∧
      env_ok.mtx_lock_status = thrd_success ∧ env_ok.mtx_unlock_status = thrd_success) ∧
    ∃ r, rwlock_writetrylock env_ok (some fresh) = some r ∧
      (r.status = thrd_busy ↔ (0 < fresh.readersactive ∨ fresh.writersactive = true)) ∧
      (¬ (0 < fresh.readersactive ∨ fresh.writersactive = true) →
        r.status = thrd_success ∧ r.rwl = some { fresh with writersactive := true }) ∧
      (r.status = thrd_success → ∀ e2 : env, e2.mtx_lock_status = thrd_success →
        ∃ r2, rwlock_writetrylock e2 r.rwl = some r2 ∧ r2.status = thrd_busy) :=
  ⟨⟨rfl, rfl, rfl, rfl⟩, writetrylock_correct env_ok fresh rfl rfl rfl rfl⟩
/-- C4: the state left by a successful `rwlock_writetrylock` on a fresh lock
has the internal mutex free; on it `rwlock_readtrylock` and
`rwlock_writetrylock` return `thrd_busy` after `mtx_lock` and without
`mtx_unlock`, so the internal mutex is held afterwards, and then no operation on
the lock other than `rwlock_init` ever returns, whatever the environment. -/
theorem trylock_busy_keeps_mutex :
    run [(op.writetrylock, env_ok)] fresh = some ⟨0, 0, 0, true, _RWLOCK_VALID, false⟩ ∧
    rwlock_readtrylock env_ok (some ⟨0, 0, 0, true, _RWLOCK_VALID, false⟩)
      = some ⟨thrd_busy, some ⟨0, 0, 0, true, _RWLOCK_VALID, true⟩,
              [(call.mtx_lock, ⟨0, 0, 0, true, _RWLOCK_VALID, false⟩)]⟩ ∧
    rwlock_writetrylock env_ok (some ⟨0, 0, 0, true, _RWLOCK_VALID, false⟩)
      = some ⟨thrd_busy, some ⟨0, 0, 0, true, _RWLOCK_VALID, true⟩,
              [(call.mtx_lock, ⟨0, 0, 0, true, _RWLOCK_VALID, false⟩)]⟩ ∧
    (∀ (o : op) (e : env), o ≠ op.init →
      exec o e (some ⟨0, 0, 0, true, _RWLOCK_VALID, true⟩) = none) := by
  refine ⟨by decide, by decide, by decide, ?_⟩
  intro o e ho
  cases o <;>
    first
    | exact absurd rfl ho
    | simp [exec, rwlock_destroy, rwlock_readlock, rwlock_readtrylock, rwlock_readunlock,
        rwlock_writelock, rwlock_writetrylock, rwlock_writeunlock, mtx_lock]

/-- C5, counterexample: on zeroed storage, whose validity marker is not
`_RWLOCK_VALID`, `rwlock_init` returns `thrd_success`, not `EINVAL`, and writes
the marker. -/
theorem init_not_validated :
    zeroed.valid ≠ _RWLOCK_VALID ∧
    (rwlock_init env_ok (some zeroed)).map (fun r => (r.status, r.rwl))
      = some (thrd_success, some fresh) ∧
    thrd_success ≠ EINVAL ∧ fresh ≠ zeroed :=
  ⟨by decide, by decide, by decide, by decide⟩

/-- C5, as amended: each of the eight operations returns `EFAULT` on a null
reference, and each of the seven operations other than `rwlock_init` returns
`EINVAL` when the validity marker is not `_RWLOCK_VALID`; in both cases no field
is modified and no primitive is called, so the internal mutex is not acquired. -/
theorem validation_first (o : op) (e : env) (rwl : rwlock)
    (ho : o ≠ op.init) (hv : rwl.valid ≠ _RWLOCK_VALID) :
    (∀ (o1 : op) (e1 : env), exec o1 e1 none = some ⟨EFAULT, none, []⟩) ∧
    exec o e (some rwl) = some ⟨EINVAL, some rwl, []⟩ := by
  constructor
  · intro o1 e1
    cases o1 <;> rfl
  · cases o <;>
      first
      | exact absurd rfl ho
      | simp [exec, rwlock_destroy, rwlock_readlock, rwlock_readtrylock, rwlock_readunlock,
          rwlock_writelock, rwlock_writetrylock, rwlock_writeunlock, hv]

/-- C5, witness: `rwlock_writelock` on zeroed storage. -/
theorem validation_first_witness :
    (op.writelock ≠ op.init ∧ zeroed.valid ≠ _RWLOCK_VALID) ∧
    (∀ (o1 : op) (e1 : env), exec o1 e1 none = some ⟨EFAULT, none, []⟩) ∧
    exec op.writelock env_ok (some zeroed) = some ⟨EINVAL, some zeroed, []⟩ :=
  ⟨⟨by decide, by decide⟩,
   validation_first op.writelock env_ok zeroed (by decide) (by decide)⟩

/-- C6, counterexample: on a live lock with one waiting writer, `mtx_lock`
succeeding and `mtx_unlock` failing with `thrd_error`, `rwlock_destroy` returns
`thrd_busy` while the internal mutex is still held. -/
theorem destroy_busy_mutex_held :
    ({ env_ok with mtx_unlock_status := thrd_error } : env).mtx_lock_status = thrd_success ∧
    (rwlock_destroy { env_ok with mtx_unlock_status := thrd_error }
        (some ⟨0, 1, 0, false, _RWLOCK_VALID, false⟩)).map (fun r => (r.status, r.rwl))
      = some (thrd_busy, some ⟨0, 1, 0, false, _RWLOCK_VALID, true⟩) :=
  ⟨by decide, by decide⟩

/-- C6, as amended: on a live lock, with `mtx_lock` and `mtx_unlock` on the
internal mutex succeeding, `rwlock_destroy` returns `thrd_busy` exactly when a
reader or the writer is active or a reader or writer waits; it then leaves the
marker, the counters and the flag as they were, has called `mtx_lock` and
`mtx_unlock` and nothing else (nothing is destroyed), and the internal mutex is
free again. -/
theorem destroy_busy (e : env) (rwl : rwlock)
    (hlive : rwl.valid = _RWLOCK_VALID) (hfree : rwl.mutex = false)
    (hlock : e.mtx_lock_status = thrd_success)
    (hunlock : e.mtx_unlock_status = thrd_success) :
    ∃ r, rwlock_destroy e (some rwl) = some r ∧
      (r.status = thrd_busy ↔
        (0 < rwl.readersactive ∨ rwl.writersactive = true ∨
         0 < rwl.readerswait ∨ 0 < rwl.writerswait)) ∧
      (r.status = thrd_busy →
        calls r = [call.mtx_lock, call.mtx_unlock] ∧
        (∀ c ∈ calls r, destroys c = false) ∧
        ∃ s1, r.rwl = some s1 ∧ s1.valid = _RWLOCK_VALID ∧
          s1.readerswait = rwl.readerswait ∧ s1.writerswait = rwl.writerswait ∧
          s1.readersactive = rwl.readersactive ∧ s1.writersactive = rwl.writersactive ∧
          s1.mutex = false) := by
  rcases rwl with ⟨rw, ww, ra, wa, v, m⟩
  simp only at hlive hfree
  subst hlive hfree
  by_cases h1 : 0 < ra ∨ wa = true
  · refine ⟨_, by simp [rwlock_destroy, mtx_lock, hlock, h1]; rfl, ?_, ?_⟩
    · simp only [true_iff]
      rcases h1 with h | h
      · exact Or.inl h
      · exact Or.inr (Or.inl h)
    · intro _
      refine ⟨rfl, by simp [calls, destroys], _, rfl, ?_⟩
      simp [mtx_unlock, hunlock]
  · by_cases h2 : 0 < rw ∨ 0 < ww
    · refine ⟨_, by simp [rwlock_destroy, mtx_lock, hlock, h1, h2]; rfl, ?_, ?_⟩
      · simp only [true_iff]
        exact Or.inr (Or.inr h2)
      · intro _
        refine ⟨rfl, by simp [calls, destroys], _, rfl, ?_⟩
        simp [mtx_unlock, hunlock]
    · have hnot : ¬ (0 < ra ∨ wa = true ∨ 0 < rw ∨ 0 < ww) := by
        rintro (h | h | h)
        · exact h1 (Or.inl h)
        · exact h1 (Or.inr h)
        · exact h2 h
      refine ⟨_, by simp [rwlock_destroy, mtx_lock, mtx_unlock, hlock, h1, h2, hunlock]; rfl,
        ?_, ?_⟩
      · simp only [hnot, iff_false]
        show thrd_success ≠ thrd_busy
        decide
      · intro h
        exact absurd (show thrd_success = thrd_busy from h) (by decide)

/-- C6, witness: a lock with one active reader, every primitive succeeding. -/
theorem destroy_busy_witness :
    ∃ r, rwlock_destroy env_ok (some ⟨0, 0, 1, false, _RWLOCK_VALID, false⟩) = some r ∧
      (r.status = thrd_busy ↔
        (0 < (1 : Nat) ∨ false = true ∨ 0 < (0 : Nat) ∨ 0 < (0 : Nat))) ∧
      (r.status = thrd_busy →
        calls r = [call.mtx_lock, call.mtx_unlock] ∧
        (∀ c ∈ calls r, destroys c = false) ∧
        ∃ s1, r.rwl = some s1 ∧ s1.valid = _RWLOCK_VALID ∧
          s1.readerswait = 0 ∧ s1.writerswait = 0 ∧
          s1.readersactive = 1 ∧ s1.writersactive = false ∧
          s1.mutex = false) :=
  destroy_busy env_ok ⟨0, 0, 1, false, _RWLOCK_VALID, false⟩ rfl rfl rfl rfl

/-- C7: on a live lock with no active reader, no active writer and no waiter,
with the calls on the internal mutex succeeding, `rwlock_destroy` returns
`thrd_success`; it calls `mtx_lock`, `mtx_unlock`, `mtx_destroy` and
`cnd_destroy` on both conditions, in this order, and the validity marker is
already different from `_RWLOCK_VALID` at `mtx_unlock` and at each destroying
call; afterwards each of the seven operations other than `rwlock_init` returns
`EINVAL`, calls no primitive and leaves every field as it is. -/
theorem destroy_idle (e : env) (rwl : rwlock)
    (hlive : rwl.valid = _RWLOCK_VALID) (hfree : rwl.mutex = false)
    (hra : rwl.readersactive = 0) (hwa : rwl.writersactive = false)
    (hrw : rwl.readerswait = 0) (hww : rwl.writerswait = 0)
    (hlock : e.mtx_lock_status = thrd_success)
    (hunlock : e.mtx_unlock_status = thrd_success) :
    ∃ r s1, rwlock_destroy e (some rwl) = some r ∧ r.status = thrd_success ∧
      r.rwl = some s1 ∧ s1.valid ≠ _RWLOCK_VALID ∧
      calls r = [call.mtx_lock, call.mtx_unlock, call.mtx_destroy,
                 call.cnd_destroy cnd.read, call.cnd_destroy cnd.write] ∧
      (∀ c ∈ r.log, c.1 ≠ call.mtx_lock → c.2.valid ≠ _RWLOCK_VALID) ∧
      (∀ (o : op) (e1 : env), o ≠ op.init →
        exec o e1 (some s1) = some ⟨EINVAL, some s1, []⟩) := by
  rcases rwl with ⟨rw, ww, ra, wa, v, m⟩
  simp only at hlive hfree hra hwa hrw hww
  subst hlive hfree hra hwa hrw hww
  have h0 : (0 : Nat) ≠ _RWLOCK_VALID := by decide
  refine ⟨_, ⟨0, 0, 0, false, 0, false⟩,
    by simp [rwlock_destroy, mtx_lock, mtx_unlock, hlock, hunlock]; rfl, ?_⟩
  refine ⟨rfl, rfl, h0, rfl, ?_, ?_⟩
  · intro c hc
    simp at hc
    rcases hc with rfl | rfl | rfl | rfl | rfl <;> simp [h0]
  · intro o e1 ho
    cases o <;>
      first
      | exact absurd rfl ho
      | simp [exec, rwlock_destroy, rwlock_readlock, rwlock_readtrylock, rwlock_readunlock,
          rwlock_writelock, rwlock_writetrylock, rwlock_writeunlock, h0]

/-- C7, witness: a fresh lock, every primitive succeeding. -/
theorem destroy_idle_witness :
    ∃ r s1, rwlock_destroy env_ok (some fresh) = some r ∧ r.status = thrd_success ∧
      r.rwl = some s1 ∧ s1.valid ≠ _RWLOCK_VALID ∧
      calls r = [call.mtx_lock, call.mtx_unlock, call.mtx_destroy,
                 call.cnd_destroy cnd.read, call.cnd_destroy cnd.write] ∧
      (∀ c ∈ r.log, c.1 ≠ call.mtx_lock → c.2.valid ≠ _RWLOCK_VALID) ∧
      (∀ (o : op) (e1 : env), o ≠ op.init →
        exec o e1 (some s1) = some ⟨EINVAL, some s1, []⟩) :=
  destroy_idle env_ok fresh rfl rfl rfl rfl rfl rfl rfl rfl

/-- C8: on a live lock, with the calls on the internal mutex succeeding,
`rwlock_writeunlock` clears `writersactive` and changes no other field; between
`mtx_lock` and `mtx_unlock` it calls `cnd_broadcast` on the read condition and
nothing else when `readerswait > 0`, `cnd_signal` on the write condition once
and nothing else when `readerswait = 0` and `writerswait > 0`, and nothing at
all when both are 0. -/
theorem writeunlock_read_precedence (e : env) (rwl : rwlock)
    (hlive : rwl.valid = _RWLOCK_VALID) (hfree : rwl.mutex = false)
    (hlock : e.mtx_lock_status = thrd_success)
    (hunlock : e.mtx_unlock_status = thrd_success) :
    ∃ r, rwlock_writeunlock e (some rwl) = some r ∧
      r.rwl = some { rwl with writersactive := false } ∧
      (0 < rwl.readerswait →
        calls r = [call.mtx_lock, call.cnd_broadcast cnd.read, call.mtx_unlock]) ∧
      (rwl.readerswait = 0 → 0 < rwl.writerswait →
        calls r = [call.mtx_lock, call.cnd_signal cnd.write, call.mtx_unlock]) ∧
      (rwl.readerswait = 0 → rwl.writerswait = 0 →
        calls r = [call.mtx_lock, call.mtx_unlock]) := by
  rcases rwl with ⟨rw, ww, ra, wa, v, m⟩
  simp only at hlive hfree
  subst hlive hfree
  by_cases h1 : rw = 0
  · by_cases h2 : ww = 0
    · subst h1 h2
      refine ⟨_, by simp [rwlock_writeunlock, mtx_lock, mtx_unlock, hlock, hunlock]; rfl, ?_⟩
      exact ⟨rfl, by simp, by simp, fun _ _ => rfl⟩
    · subst h1
      refine ⟨_, by simp [rwlock_writeunlock, mtx_lock, mtx_unlock, hlock, hunlock, h2]; rfl,
        ?_⟩
      exact ⟨rfl, by simp, fun _ _ => rfl, fun _ h => absurd h h2⟩
  · refine ⟨_, by simp [rwlock_writeunlock, mtx_lock, mtx_unlock, hlock, hunlock, h1]; rfl, ?_⟩
    exact ⟨rfl, fun _ => rfl, fun h => absurd h h1, fun h => absurd h h1⟩

/-- C8, witness: a writer holds the lock, one reader and one writer wait; only
the read condition is notified. -/
theorem writeunlock_read_precedence_witness :
    ∃ r, rwlock_writeunlock env_ok (some ⟨1, 1, 0, true, _RWLOCK_VALID, false⟩) = some r ∧
      r.rwl = some ⟨1, 1, 0, false, _RWLOCK_VALID, false⟩ ∧
      calls r = [call.mtx_lock, call.cnd_broadcast cnd.read, call.mtx_unlock] := by
  obtain ⟨r, h1, h2, h3, -, -⟩ :=
    writeunlock_read_precedence env_ok ⟨1, 1, 0, true, _RWLOCK_VALID, false⟩ rfl rfl rfl rfl
  exact ⟨r, h1, h2, h3 (by decide)⟩

/-- C9, counterexample: on a fresh lock, where `readersactive = 0`,
`rwlock_readunlock` returns `thrd_success` and leaves `readersactive = SIZE_MAX`,
which is not the value before minus one. -/
theorem readunlock_counterexample :
    (rwlock_readunlock env_ok (some fresh)).map (fun r => (r.status, r.rwl))
      = some (thrd_success, some ⟨0, 0, SIZE_MAX, false, _RWLOCK_VALID, false⟩) ∧
    SIZE_MAX + 1 ≠ fresh.readersactive :=
  ⟨by decide, by decide⟩

/-- C9, as amended: on a live lock, with the calls on the internal mutex
succeeding, `rwlock_readunlock` decrements `readersactive` modulo `SIZE_MAX + 1`
(by exactly one when `0 < readersactive`) and leaves every other field as it
was; between `mtx_lock` and `mtx_unlock` it calls `cnd_signal` on the write
condition once when the decremented `readersactive` is 0 and `writerswait > 0`,
and nothing otherwise. -/
theorem readunlock_correct (e : env) (rwl : rwlock)
    (hlive : rwl.valid = _RWLOCK_VALID) (hfree : rwl.mutex = false)
    (hlock : e.mtx_lock_status = thrd_success)
    (hunlock : e.mtx_unlock_status = thrd_success) :
    ∃ r, rwlock_readunlock e (some rwl) = some r ∧
      r.rwl = some { rwl with
        readersactive := (rwl.readersactive + SIZE_MAX) % (SIZE_MAX + 1) } ∧
      (0 < rwl.readersactive → rwl.readersactive ≤ SIZE_MAX →
        r.rwl = some { rwl with readersactive := rwl.readersactive - 1 }) ∧
      ((rwl.readersactive + SIZE_MAX) % (SIZE_MAX + 1) = 0 ∧ 0 < rwl.writerswait →
        calls r = [call.mtx_lock, call.cnd_signal cnd.write, call.mtx_unlock]) ∧
      (¬ ((rwl.readersactive + SIZE_MAX) % (SIZE_MAX + 1) = 0 ∧ 0 < rwl.writerswait) →
        calls r = [call.mtx_lock, call.mtx_unlock]) := by
  rcases rwl with ⟨rw, ww, ra, wa, v, m⟩
  simp only at hlive hfree
  subst hlive hfree
  have hdec : 0 < ra → ra ≤ SIZE_MAX → (ra + SIZE_MAX) % (SIZE_MAX + 1) = ra - 1 := by
    intro h0 h1
    have h2 : ra + SIZE_MAX = (ra - 1) + 1 * (SIZE_MAX + 1) := by omega
    rw [h2, Nat.add_mul_mod_self_right]
    exact Nat.mod_eq_of_lt (by omega)
  by_cases hs : (ra + SIZE_MAX) % (SIZE_MAX + 1) = 0 ∧ 0 < ww
  · refine ⟨_, by simp [rwlock_readunlock, mtx_lock, mtx_unlock, hlock, hunlock, size_dec,
      hs.1, hs.2]; rfl, ?_⟩
    refine ⟨by simp [hs.1], fun h0 h1 => ?_, fun _ => rfl, fun h => absurd hs h⟩
    simp only at h0 h1
    simp [← hdec h0 h1, hs.1]
  · have hs1 : ¬ (size_dec ra = 0 ∧ 0 < ww) := hs
    refine ⟨_, (by
      simp only [rwlock_readunlock, mtx_lock, mtx_unlock, hlock, hunlock]
      simp [hs1]
      rfl), ?_⟩
    refine ⟨rfl, fun h0 h1 => ?_, fun h => absurd h hs, fun _ => rfl⟩
    simp only at h0 h1
    simp [size_dec, hdec h0 h1]

/-- C9, witness: the last reader leaves while a writer waits. -/
theorem readunlock_correct_witness :
    ∃ r, rwlock_readunlock env_ok (some ⟨0, 1, 1, false, _RWLOCK_VALID, false⟩) = some r ∧
      r.rwl = some ⟨0, 1, 0, false, _RWLOCK_VALID, false⟩ ∧
      calls r = [call.mtx_lock, call.cnd_signal cnd.write, call.mtx_unlock] := by
  obtain ⟨r, h1, -, h2, h3, -⟩ :=
    readunlock_correct env_ok ⟨0, 1, 1, false, _RWLOCK_VALID, false⟩ rfl rfl rfl rfl
  exact ⟨r, h1, h2 (by decide) (by decide), h3 (by decide)⟩
/-- C10, counterexample: on the live lock with `readersactive = SIZE_MAX` that
`rwlock_readunlock` leaves from a fresh lock, `rwlock_readlock` finds no writer
active, does not wait, returns `thrd_success` and leaves `readersactive = 0`,
not the value before plus one; and when `mtx_lock` fails on a fresh lock it
returns `thrd_error` and increments nothing. -/
theorem readlock_counterexample :
    run [(op.readunlock, env_ok)] fresh = some ⟨0, 0, SIZE_MAX, false, _RWLOCK_VALID, false⟩ ∧
    (rwlock_readlock env_ok (some ⟨0, 0, SIZE_MAX, false, _RWLOCK_VALID, false⟩)).map
        (fun r => (r.status, r.rwl, calls r))
      = some (thrd_success, some ⟨0, 0, 0, false, _RWLOCK_VALID, false⟩,
              [call.mtx_lock, call.mtx_unlock]) ∧
    (0 : Nat) ≠ SIZE_MAX + 1 ∧
    (rwlock_readlock { env_ok with mtx_lock_status := thrd_error } (some fresh)).map
        (fun r => (r.status, r.rwl))
      = some (thrd_error, some fresh) ∧
    thrd_error ≠ thrd_success :=
  ⟨by decide, by decide, by decide, by decide, by decide⟩

/-- C10, as amended: on a live lock, with the calls on the internal mutex
succeeding and every wake-up from `cnd_wait` handing back a status and the
fields as other threads left them.
(1) With `writersactive` clear on entry `rwlock_readlock` calls only `mtx_lock`
and `mtx_unlock`, returns `thrd_success` and increments `readersactive` modulo
`SIZE_MAX + 1` (by exactly one below `SIZE_MAX`).
(2) With `writersactive` set on entry it waits on the read condition, first
with `readerswait` incremented, and only while it sees `writersactive` set; at
the first wake-up `w` that fails or shows `writersactive` clear it stops: if `w`
succeeded it returns `thrd_success` with `readerswait` decremented and
`readersactive` incremented in the fields of `w`, where `writersactive` is
clear; if `w` failed it returns the status of `w` with `readerswait`
decremented and `readersactive` as `w` left it.
(3) While every wake-up succeeds and shows `writersactive` set, the call does
not return. -/
theorem readlock_correct (e : env) (rwl : rwlock)
    (hlive : rwl.valid = _RWLOCK_VALID) (hfree : rwl.mutex = false)
    (hlock : e.mtx_lock_status = thrd_success)
    (hunlock : e.mtx_unlock_status = thrd_success) :
    (rwl.writersactive = false →
      ∃ r, rwlock_readlock e (some rwl) = some r ∧ r.status = thrd_success ∧
        calls r = [call.mtx_lock, call.mtx_unlock] ∧
        r.rwl = some { rwl with readersactive := size_inc rwl.readersactive } ∧
        (rwl.readersactive < SIZE_MAX →
          r.rwl = some { rwl with readersactive := rwl.readersactive + 1 })) ∧
    (rwl.writersactive = true →
      ∀ (pre : List wakeup) (w : wakeup) (post : List wakeup),
        e.wakeups = pre ++ w :: post →
        (∀ p ∈ pre, p.status = thrd_success ∧ p.fields.writersactive = true) →
        (w.status ≠ thrd_success ∨ w.fields.writersactive = false) →
        ∃ r, rwlock_readlock e (some rwl) = some r ∧
          calls r = call.mtx_lock ::
            List.replicate (pre.length + 1) (call.cnd_wait cnd.read) ++ [call.mtx_unlock] ∧
          (call.cnd_wait cnd.read,
            { rwl with readerswait := size_inc rwl.readerswait, mutex := true }) ∈ r.log ∧
          (∀ c ∈ r.log, c.1 = call.cnd_wait cnd.read → c.2.writersactive = true) ∧
          (w.status = thrd_success →
            r.status = thrd_success ∧
            r.rwl = some { w.fields with
              readerswait := size_dec w.fields.readerswait,
              readersactive := size_inc w.fields.readersactive,
              writersactive := false, mutex := false }) ∧
          (w.status ≠ thrd_success →
            r.status = w.status ∧
            r.rwl = some { w.fields with
              readerswait := size_dec w.fields.readerswait, mutex := false })) ∧
    (rwl.writersactive = true →
      (∀ p ∈ e.wakeups, p.status = thrd_success ∧ p.fields.writersactive = true) →
      rwlock_readlock e (some rwl) = none) := by
  rcases rwl with ⟨rw, ww, ra, wa, v, m⟩
  simp only at hlive hfree
  subst hlive hfree
  refine ⟨?_, ?_, ?_⟩
  · intro hwa
    simp only at hwa
    subst hwa
    refine ⟨_, (by simp [rwlock_readlock, mtx_lock, mtx_unlock, hlock, hunlock]; rfl), ?_⟩
    refine ⟨rfl, rfl, rfl, fun hlt => ?_⟩
    simp only at hlt
    have : (ra + 1) % (SIZE_MAX + 1) = ra + 1 := Nat.mod_eq_of_lt (by omega)
    simp [size_inc, this]
  · intro hwa pre w post hws hpre hw
    simp only at hwa
    subst hwa
    have hloop := readlock_wait_spec pre thrd_success
      ⟨size_inc rw, ww, ra, true, _RWLOCK_VALID, true⟩
      [(call.mtx_lock, ⟨rw, ww, ra, true, _RWLOCK_VALID, false⟩)] w post rfl hpre hw
    by_cases hst : w.status = thrd_success
    · have hwf : w.fields.writersactive = false := by
        rcases hw with hw | hw
        · exact absurd hst hw
        · exact hw
      refine ⟨_, (by
        simp only [rwlock_readlock, mtx_lock, mtx_unlock, hlock, hunlock, hws]
        simp [hloop, hst]
        rfl), ?_⟩
      refine ⟨?_, ?_, ?_, fun _ => ⟨rfl, ?_⟩, fun h => absurd hst h⟩
      · simp [calls, Function.comp_def, List.replicate_succ]
      · simp
      · intro c hc
        simp at hc
        rcases hc with rfl | rfl | ⟨p, hp, rfl⟩ | rfl
        · simp
        · simp
        · intro _; exact (hpre p hp).2
        · simp
      · simp [woken, hwf]
    · refine ⟨_, (by
        simp only [rwlock_readlock, mtx_lock, mtx_unlock, hlock, hunlock, hws]
        simp [hloop, hst]
        rfl), ?_⟩
      refine ⟨?_, ?_, ?_, fun h => absurd h hst, fun _ => ⟨rfl, ?_⟩⟩
      · simp [calls, Function.comp_def, List.replicate_succ]
      · simp
      · intro c hc
        simp at hc
        rcases hc with rfl | rfl | ⟨p, hp, rfl⟩ | rfl
        · simp
        · simp
        · intro _; exact (hpre p hp).2
        · simp
      · simp [woken]
  · intro hwa hall
    simp only at hwa
    subst hwa
    have hloop := readlock_wait_blocked e.wakeups thrd_success
      ⟨size_inc rw, ww, ra, true, _RWLOCK_VALID, true⟩
      [(call.mtx_lock, ⟨rw, ww, ra, true, _RWLOCK_VALID, false⟩)] rfl hall
    simp only [rwlock_readlock, mtx_lock, mtx_unlock, hlock, hunlock]
    simp [hloop]

/-- C10, witness: a writer holds the lock; the first wake-up still shows it
active, the second shows it gone. -/
theorem readlock_correct_witness :
    ∃ r, rwlock_readlock
        { env_ok with wakeups :=
            [⟨thrd_success, ⟨1, 0, 0, true, _RWLOCK_VALID, false⟩⟩,
             ⟨thrd_success, ⟨1, 0, 0, false, _RWLOCK_VALID, false⟩⟩] }
        (some ⟨0, 0, 0, true, _RWLOCK_VALID, false⟩) = some r ∧
      calls r = [call.mtx_lock, call.cnd_wait cnd.read, call.cnd_wait cnd.read,
                 call.mtx_unlock] ∧
      r.status = thrd_success ∧
      r.rwl = some ⟨0, 0, 1, false, _RWLOCK_VALID, false⟩ := by
  obtain ⟨r, h1, h2, -, -, h3, -⟩ :=
    (readlock_correct
      { env_ok with wakeups :=
          [⟨thrd_success, ⟨1, 0, 0, true, _RWLOCK_VALID, false⟩⟩,
           ⟨thrd_success, ⟨1, 0, 0, false, _RWLOCK_VALID, false⟩⟩] }
      ⟨0, 0, 0, true, _RWLOCK_VALID, false⟩ rfl rfl rfl rfl).2.1 rfl
      [⟨thrd_success, ⟨1, 0, 0, true, _RWLOCK_VALID, false⟩⟩]
      ⟨thrd_success, ⟨1, 0, 0, false, _RWLOCK_VALID, false⟩⟩ [] rfl (by decide)
      (Or.inr rfl)
  exact ⟨r, h1, h2, (h3 rfl).1, (h3 rfl).2⟩

/-- C11: on a live lock, with the calls on the internal mutex succeeding and
every wake-up from `cnd_wait` handing back a status and the fields as other
threads left them.
(1) With `readersactive = 0` and `writersactive` clear on entry
`rwlock_writelock` calls only `mtx_lock` and `mtx_unlock`, sets `writersactive`
and returns `thrd_success`.
(2) Otherwise it waits on the write condition, first with `writerswait`
incremented, and only while it sees a reader or a writer active; at the first
wake-up `w` that fails or shows neither it stops: if `w` succeeded it returns
`thrd_success` with `writerswait` decremented and `writersactive` set in the
fields of `w`, where no reader and no writer is active; if `w` failed it
returns the status of `w` with `writerswait` decremented and `writersactive` as
`w` left it.
(3) While every wake-up succeeds and shows a reader or a writer active, the
call does not return. -/
theorem writelock_correct (e : env) (rwl : rwlock)
    (hlive : rwl.valid = _RWLOCK_VALID) (hfree : rwl.mutex = false)
    (hlock : e.mtx_lock_status = thrd_success)
    (hunlock : e.mtx_unlock_status = thrd_success) :
    (rwl.readersactive = 0 → rwl.writersactive = false →
      ∃ r, rwlock_writelock e (some rwl) = some r ∧ r.status = thrd_success ∧
        calls r = [call.mtx_lock, call.mtx_unlock] ∧
        r.rwl = some { rwl with writersactive := true }) ∧
    ((0 < rwl.readersactive ∨ rwl.writersactive = true) →
      ∀ (pre : List wakeup) (w : wakeup) (post : List wakeup),
        e.wakeups = pre ++ w :: post →
        (∀ p ∈ pre, p.status = thrd_success ∧
          (0 < p.fields.readersactive ∨ p.fields.writersactive = true)) →
        (w.status ≠ thrd_success ∨
          (w.fields.readersactive = 0 ∧ w.fields.writersactive = false)) →
        ∃ r, rwlock_writelock e (some rwl) = some r ∧
          calls r = call.mtx_lock ::
            List.replicate (pre.length + 1) (call.cnd_wait cnd.write) ++ [call.mtx_unlock] ∧
          (call.cnd_wait cnd.write,
            { rwl with writerswait := size_inc rwl.writerswait, mutex := true }) ∈ r.log ∧
          (∀ c ∈ r.log, c.1 = call.cnd_wait cnd.write →
            (0 < c.2.readersactive ∨ c.2.writersactive = true)) ∧
          (w.status = thrd_success →
            w.fields.readersactive = 0 ∧ w.fields.writersactive = false ∧
            r.status = thrd_success ∧
            r.rwl = some { w.fields with
              writerswait := size_dec w.fields.writerswait,
              writersactive := true, mutex := false }) ∧
          (w.status ≠ thrd_success →
            r.status = w.status ∧
            r.rwl = some { w.fields with
              writerswait := size_dec w.fields.writerswait, mutex := false })) ∧
    ((0 < rwl.readersactive ∨ rwl.writersactive = true) →
      (∀ p ∈ e.wakeups, p.status = thrd_success ∧
        (0 < p.fields.readersactive ∨ p.fields.writersactive = true)) →
      rwlock_writelock e (some rwl) = none) := by
  rcases rwl with ⟨rw, ww, ra, wa, v, m⟩
  simp only at hlive hfree
  subst hlive hfree
  refine ⟨?_, ?_, ?_⟩
  · intro hra hwa
    simp only at hra hwa
    subst hra hwa
    refine ⟨_, (by simp [rwlock_writelock, mtx_lock, mtx_unlock, hlock, hunlock]; rfl), ?_⟩
    exact ⟨rfl, rfl, rfl⟩
  · intro hbusy pre w post hws hpre hw
    simp only at hbusy
    have hloop := writelock_wait_spec pre thrd_success
      ⟨rw, size_inc ww, ra, wa, _RWLOCK_VALID, true⟩
      [(call.mtx_lock, ⟨rw, ww, ra, wa, _RWLOCK_VALID, false⟩)] w post hbusy hpre hw
    by_cases hst : w.status = thrd_success
    · have hwf : w.fields.readersactive = 0 ∧ w.fields.writersactive = false := by
        rcases hw with hw | hw
        · exact absurd hst hw
        · exact hw
      refine ⟨_, (by
        simp only [rwlock_writelock, mtx_lock, mtx_unlock, hlock, hunlock, hws]
        simp [hloop, hst, hbusy]
        rfl), ?_⟩
      refine ⟨?_, ?_, ?_, fun _ => ⟨hwf.1, hwf.2, rfl, ?_⟩, fun h => absurd hst h⟩
      · simp [calls, Function.comp_def, List.replicate_succ]
      · simp
      · intro c hc
        simp at hc
        rcases hc with rfl | rfl | ⟨p, hp, rfl⟩ | rfl
        · simp
        · intro _; exact hbusy
        · intro _; exact (hpre p hp).2
        · simp
      · simp [woken]
    · refine ⟨_, (by
        simp only [rwlock_writelock, mtx_lock, mtx_unlock, hlock, hunlock, hws]
        simp [hloop, hst, hbusy]
        rfl), ?_⟩
      refine ⟨?_, ?_, ?_, fun h => absurd h hst, fun _ => ⟨rfl, ?_⟩⟩
      · simp [calls, Function.comp_def, List.replicate_succ]
      · simp
      · intro c hc
        simp at hc
        rcases hc with rfl | rfl | ⟨p, hp, rfl⟩ | rfl
        · simp
        · intro _; exact hbusy
        · intro _; exact (hpre p hp).2
        · simp
      · simp [woken]
  · intro hbusy hall
    simp only at hbusy
    have hloop := writelock_wait_blocked e.wakeups thrd_success
      ⟨rw, size_inc ww, ra, wa, _RWLOCK_VALID, true⟩
      [(call.mtx_lock, ⟨rw, ww, ra, wa, _RWLOCK_VALID, false⟩)] hbusy hall
    simp only [rwlock_writelock, mtx_lock, mtx_unlock, hlock, hunlock]
    simp [hloop, hbusy]

/-- C11, witness: a reader holds the lock; the first wake-up still shows it
active, the second shows the lock free. -/
theorem writelock_correct_witness :
    ∃ r, rwlock_writelock
        { env_ok with wakeups :=
            [⟨thrd_success, ⟨0, 1, 1, false, _RWLOCK_VALID, false⟩⟩,
             ⟨thrd_success, ⟨0, 1, 0, false, _RWLOCK_VALID, false⟩⟩] }
        (some ⟨0, 0, 1, false, _RWLOCK_VALID, false⟩) = some r ∧
      calls r = [call.mtx_lock, call.cnd_wait cnd.write, call.cnd_wait cnd.write,
                 call.mtx_unlock] ∧
      r.status = thrd_success ∧
      r.rwl = some ⟨0, 0, 0, true, _RWLOCK_VALID, false⟩ := by
  obtain ⟨r, h1, h2, -, -, h3, -⟩ :=
    (writelock_correct
      { env_ok with wakeups :=
          [⟨thrd_success, ⟨0, 1, 1, false, _RWLOCK_VALID, false⟩⟩,
           ⟨thrd_success, ⟨0, 1, 0, false, _RWLOCK_VALID, false⟩⟩] }
      ⟨0, 0, 1, false, _RWLOCK_VALID, false⟩ rfl rfl rfl rfl).2.1 (Or.inl (by decide))
      [⟨thrd_success, ⟨0, 1, 1, false, _RWLOCK_VALID, false⟩⟩]
      ⟨thrd_success, ⟨0, 1, 0, false, _RWLOCK_VALID, false⟩⟩ [] rfl (by decide)
      (Or.inr ⟨rfl, rfl⟩)
  exact ⟨r, h1, h2, (h3 rfl).2.2.1, (h3 rfl).2.2.2⟩

/-- C12: on storage that is not null, whatever it holds, when `mtx_init` and
both `cnd_init` succeed `rwlock_init` returns `thrd_success` after exactly these
three calls and leaves `readerswait = 0`, `writerswait = 0`,
`readersactive = 0`, `writersactive` clear and `valid = _RWLOCK_VALID`. -/
theorem init_success (e : env) (rwl : rwlock)
    (hmtx : e.mtx_init_status = thrd_success)
    (hread : e.cnd_init_read_status = thrd_success)
    (hwrite : e.cnd_init_write_status = thrd_success) :
    ∃ r s1, rwlock_init e (some rwl) = some r ∧ r.status = thrd_success ∧
      calls r = [call.mtx_init, call.cnd_init cnd.read, call.cnd_init cnd.write] ∧
      r.rwl = some s1 ∧ s1.readerswait = 0 ∧ s1.writerswait = 0 ∧
      s1.readersactive = 0 ∧ s1.writersactive = false ∧ s1.valid = _RWLOCK_VALID := by
  refine ⟨_, fresh, (by simp [rwlock_init, hmtx, hread, hwrite]; rfl), ?_⟩
  exact ⟨rfl, rfl, rfl, rfl, rfl, rfl, rfl, rfl⟩

/-- C12, witness: storage holding arbitrary values. -/
theorem init_success_witness :
    ∃ r s1, rwlock_init env_ok (some ⟨7, 9, 3, true, 5, true⟩) = some r ∧
      r.status = thrd_success ∧
      calls r = [call.mtx_init, call.cnd_init cnd.read, call.cnd_init cnd.write] ∧
      r.rwl = some s1 ∧ s1.readerswait = 0 ∧ s1.writerswait = 0 ∧
      s1.readersactive = 0 ∧ s1.writersactive = false ∧ s1.valid = _RWLOCK_VALID :=
  init_success env_ok ⟨7, 9, 3, true, 5, true⟩ rfl rfl rfl

/-- C13: on an object that is not live, when the construction of a primitive
fails `rwlock_init` returns the status of the failing call; it has then called
nothing after a failed `mtx_init`, `mtx_destroy` alone after a failed
`cnd_init` of the read condition, and `cnd_destroy` of the read condition then
`mtx_destroy` after a failed `cnd_init` of the write condition; the validity
marker is still not `_RWLOCK_VALID`, so every operation other than
`rwlock_init` returns `EINVAL` afterwards. -/
theorem init_failure (e : env) (rwl : rwlock) (hdead : rwl.valid ≠ _RWLOCK_VALID) :
    (e.mtx_init_status ≠ thrd_success →
      ∃ r s1, rwlock_init e (some rwl) = some r ∧ r.status = e.mtx_init_status ∧
        calls r = [call.mtx_init] ∧
        r.rwl = some s1 ∧ s1.valid ≠ _RWLOCK_VALID ∧ rejected s1) ∧
    (e.mtx_init_status = thrd_success → e.cnd_init_read_status ≠ thrd_success →
      ∃ r s1, rwlock_init e (some rwl) = some r ∧ r.status = e.cnd_init_read_status ∧
        calls r = [call.mtx_init, call.cnd_init cnd.read, call.mtx_destroy] ∧
        r.rwl = some s1 ∧ s1.valid ≠ _RWLOCK_VALID ∧ rejected s1) ∧
    (e.mtx_init_status = thrd_success → e.cnd_init_read_status = thrd_success →
      e.cnd_init_write_status ≠ thrd_success →
      ∃ r s1, rwlock_init e (some rwl) = some r ∧ r.status = e.cnd_init_write_status ∧
        calls r = [call.mtx_init, call.cnd_init cnd.read, call.cnd_init cnd.write,
                   call.cnd_destroy cnd.read, call.mtx_destroy] ∧
        r.rwl = some s1 ∧ s1.valid ≠ _RWLOCK_VALID ∧ rejected s1) := by
  rcases rwl with ⟨rw, ww, ra, wa, v, m⟩
  simp only at hdead
  refine ⟨fun h1 => ?_, fun h1 h2 => ?_, fun h1 h2 h3 => ?_⟩
  · refine ⟨_, ⟨0, 0, 0, false, v, m⟩, (by simp [rwlock_init, h1]; rfl), ?_⟩
    exact ⟨rfl, rfl, rfl, hdead, rejected_of_not_live _ hdead⟩
  · refine ⟨_, ⟨0, 0, 0, false, v, false⟩, (by simp [rwlock_init, h1, h2]; rfl), ?_⟩
    exact ⟨rfl, rfl, rfl, hdead, rejected_of_not_live _ hdead⟩
  · refine ⟨_, ⟨0, 0, 0, false, v, false⟩, (by simp [rwlock_init, h1, h2, h3]; rfl), ?_⟩
    exact ⟨rfl, rfl, rfl, hdead, rejected_of_not_live _ hdead⟩

/-- C13, witness: on zeroed storage the write condition cannot be constructed
for lack of memory. -/
theorem init_failure_witness :
    ∃ r s1, rwlock_init { env_ok with cnd_init_write_status := thrd_nomem } (some zeroed)
        = some r ∧ r.status = thrd_nomem ∧
      calls r = [call.mtx_init, call.cnd_init cnd.read, call.cnd_init cnd.write,
                 call.cnd_destroy cnd.read, call.mtx_destroy] ∧
      r.rwl = some s1 ∧ s1.valid ≠ _RWLOCK_VALID ∧ rejected s1 :=
  (init_failure { env_ok with cnd_init_write_status := thrd_nomem } zeroed
    (by decide)).2.2 rfl rfl (by decide)

/-- C14: on storage that is not null, with the calls on the mutex and the
conditions succeeding, `rwlock_init` returns `thrd_success` and `rwlock_destroy`
called next on the same object returns `thrd_success` too. -/
theorem init_destroy_roundtrip (e1 e2 : env) (rwl : rwlock)
    (hmtx : e1.mtx_init_status = thrd_success)
    (hread : e1.cnd_init_read_status = thrd_success)
    (hwrite : e1.cnd_init_write_status = thrd_success)
    (hlock : e2.mtx_lock_status = thrd_success)
    (hunlock : e2.mtx_unlock_status = thrd_success) :
    ∃ r1 s1 r2, rwlock_init e1 (some rwl) = some r1 ∧ r1.status = thrd_success ∧
      r1.rwl = some s1 ∧
      rwlock_destroy e2 (some s1) = some r2 ∧ r2.status = thrd_success := by
  refine ⟨_, fresh, _, (by simp [rwlock_init, hmtx, hread, hwrite]; rfl), rfl, rfl,
    (by simp [rwlock_destroy, fresh, mtx_lock, mtx_unlock, hlock, hunlock]; rfl), rfl⟩

/-- C14, witness: zeroed storage, every primitive succeeding. -/
theorem init_destroy_roundtrip_witness :
    ∃ r1 s1 r2, rwlock_init env_ok (some zeroed) = some r1 ∧ r1.status = thrd_success ∧
      r1.rwl = some s1 ∧
      rwlock_destroy env_ok (some s1) = some r2 ∧ r2.status = thrd_success :=
  init_destroy_roundtrip env_ok env_ok zeroed rfl rfl rfl rfl rfl

/-- C15: on a live lock whose internal mutex is free, when `mtx_lock` fails
each of the seven operations other than `rwlock_init` returns the status of
`mtx_lock`, leaves every field as it was and has called `mtx_lock` only: no
call on a condition and no `mtx_unlock`. -/
theorem mtx_lock_failure (o : op) (e : env) (rwl : rwlock) (ho : o ≠ op.init)
    (hlive : rwl.valid = _RWLOCK_VALID) (hfree : rwl.mutex = false)
    (hfail : e.mtx_lock_status ≠ thrd_success) :
    exec o e (some rwl) = some ⟨e.mtx_lock_status, some rwl, [(call.mtx_lock, rwl)]⟩ := by
  cases o <;>
    first
    | exact absurd rfl ho
    | simp [exec, rwlock_destroy, rwlock_readlock, rwlock_readtrylock, rwlock_readunlock,
        rwlock_writelock, rwlock_writetrylock, rwlock_writeunlock, mtx_lock, hlive, hfree,
        hfail]

/-- C15, witness: `rwlock_writelock` on a fresh lock, `mtx_lock` failing. -/
theorem mtx_lock_failure_witness :
    exec op.writelock { env_ok with mtx_lock_status := thrd_error } (some fresh)
      = some ⟨thrd_error, some fresh, [(call.mtx_lock, fresh)]⟩ :=
  mtx_lock_failure op.writelock { env_ok with mtx_lock_status := thrd_error } fresh
    (by decide) rfl rfl (by decide)

/-- C16: on a live lock with one active reader, `mtx_lock` succeeding and
`mtx_unlock` failing with `thrd_error`, `rwlock_destroy` calls `mtx_lock` and
`mtx_unlock` and returns `thrd_busy`, not the status of the failed
`mtx_unlock`, and the internal mutex stays held; `rwlock_readunlock` in the
same environment returns `thrd_error`. -/
theorem destroy_busy_ignores_unlock_failure :
    rwlock_destroy { env_ok with mtx_unlock_status := thrd_error }
        (some ⟨0, 0, 1, false, _RWLOCK_VALID, false⟩)
      = some ⟨thrd_busy, some ⟨0, 0, 1, false, _RWLOCK_VALID, true⟩,
              [(call.mtx_lock, ⟨0, 0, 1, false, _RWLOCK_VALID, false⟩),
               (call.mtx_unlock, ⟨0, 0, 1, false, _RWLOCK_VALID, true⟩)]⟩ ∧
    thrd_busy ≠ thrd_error ∧
    (rwlock_readunlock { env_ok with mtx_unlock_status := thrd_error }
        (some ⟨0, 0, 1, false, _RWLOCK_VALID, false⟩)).map (fun r => r.status)
      = some thrd_error :=
  ⟨by decide, by decide, by decide⟩

/-- C18: whenever `rwlock_readlock`, `rwlock_readunlock`, `rwlock_writelock` or
`rwlock_writeunlock` returns from a live lock after `mtx_lock` succeeded,
whatever the outcomes of `cnd_wait`, `cnd_signal`, `cnd_broadcast` and
`mtx_unlock`, its calls start with the one `mtx_lock`, contain `mtx_unlock`
exactly once, and that `mtx_unlock` is the last call; when it succeeds the
internal mutex is free on return. -/
theorem unlock_balance (o : op) (e : env) (rwl : rwlock) (r : result)
    (ho : o = op.readlock ∨ o = op.readunlock ∨ o = op.writelock ∨ o = op.writeunlock)
    (hlive : rwl.valid = _RWLOCK_VALID) (hlock : e.mtx_lock_status = thrd_success)
    (hr : exec o e (some rwl) = some r) :
    (calls r).head? = some call.mtx_lock ∧
    (calls r).count call.mtx_lock = 1 ∧
    (calls r).count call.mtx_unlock = 1 ∧
    (calls r).getLast? = some call.mtx_unlock ∧
    (e.mtx_unlock_status = thrd_success → ∃ s1, r.rwl = some s1 ∧ s1.mutex = false) := by
  rcases rwl with ⟨rw, ww, ra, wa, v, m⟩
  simp only at hlive
  subst hlive
  cases m
  swap
  · rcases ho with rfl | rfl | rfl | rfl <;>
      simp [exec, rwlock_readlock, rwlock_readunlock, rwlock_writelock, rwlock_writeunlock,
        mtx_lock] at hr
  rcases ho with rfl | rfl | rfl | rfl
  · -- rwlock_readlock
    simp only [exec, rwlock_readlock, mtx_lock, hlock] at hr
    cases wa
    · by_cases hu : e.mtx_unlock_status = thrd_success <;>
        simp [mtx_unlock, hu] at hr <;> subst hr <;> simp [calls, hu]
    · simp at hr
      generalize hloop : readlock_wait _ _ _ _ = x at hr
      rcases x with _ | ⟨st, rwl2, log2⟩
      · simp at hr
      · obtain ⟨hm, k, hk⟩ := readlock_wait_calls _ _ _ _ _ _ _ hloop
        simp only [List.map_cons, List.map_nil, List.singleton_append] at hk
        have hb := balanced_waits k cnd.read
        by_cases hu : e.mtx_unlock_status = thrd_success <;>
          by_cases hst : st = thrd_success <;>
          simp [mtx_unlock, hu, hst] at hr <;> subst hr <;>
          simp only [calls, List.map_append, List.map_cons, List.map_nil, hk] <;>
          simp [hb.1, hb.2.1, hb.2.2, hu]
  · -- rwlock_readunlock
    simp only [exec, rwlock_readunlock, mtx_lock, hlock] at hr
    by_cases hs : size_dec ra = 0 ∧ 0 < ww <;>
      by_cases hu : e.mtx_unlock_status = thrd_success <;>
      simp [mtx_unlock, hu, hs] at hr <;> subst hr <;> simp [calls, hu]
  · -- rwlock_writelock
    simp only [exec, rwlock_writelock, mtx_lock, hlock] at hr
    by_cases hc : 0 < ra ∨ wa = true
    · simp [hc] at hr
      generalize hloop : writelock_wait _ _ _ _ = x at hr
      rcases x with _ | ⟨st, rwl2, log2⟩
      · simp at hr
      · obtain ⟨hm, k, hk⟩ := writelock_wait_calls _ _ _ _ _ _ _ hloop
        simp only [List.map_cons, List.map_nil, List.singleton_append] at hk
        have hb := balanced_waits k cnd.write
        by_cases hu : e.mtx_unlock_status = thrd_success <;>
          by_cases hst : st = thrd_success <;>
          simp [mtx_unlock, hu, hst] at hr <;> subst hr <;>
          simp only [calls, List.map_append, List.map_cons, List.map_nil, hk] <;>
          simp [hb.1, hb.2.1, hb.2.2, hu]
    · by_cases hu : e.mtx_unlock_status = thrd_success <;>
        simp [mtx_unlock, hu, hc] at hr <;> subst hr <;> simp [calls, hu]
  · -- rwlock_writeunlock
    simp only [exec, rwlock_writeunlock, mtx_lock, hlock] at hr
    by_cases h1 : rw = 0 <;> by_cases h2 : ww = 0 <;>
      by_cases hu : e.mtx_unlock_status = thrd_success <;>
      simp [mtx_unlock, hu, h1, h2] at hr <;> subst hr <;> simp [calls, hu]

/-- C18, witness: `rwlock_readlock` on a lock held by a writer, the wait on the
read condition failing. -/
theorem unlock_balance_witness :
    ∃ r, exec op.readlock
        { env_ok with wakeups := [⟨thrd_error, ⟨1, 0, 0, true, _RWLOCK_VALID, false⟩⟩] }
        (some ⟨0, 0, 0, true, _RWLOCK_VALID, false⟩) = some r ∧
      r.status = thrd_error ∧
      calls r = [call.mtx_lock, call.cnd_wait cnd.read, call.mtx_unlock] ∧
      (calls r).count call.mtx_unlock = 1 ∧
      (calls r).getLast? = some call.mtx_unlock :=
  ⟨_, rfl, rfl, rfl,
    (unlock_balance op.readlock
      { env_ok with wakeups := [⟨thrd_error, ⟨1, 0, 0, true, _RWLOCK_VALID, false⟩⟩] }
      ⟨0, 0, 0, true, _RWLOCK_VALID, false⟩ _ (Or.inl rfl) rfl rfl rfl).2.2.1,
    (unlock_balance op.readlock
      { env_ok with wakeups := [⟨thrd_error, ⟨1, 0, 0, true, _RWLOCK_VALID, false⟩⟩] }
      ⟨0, 0, 0, true, _RWLOCK_VALID, false⟩ _ (Or.inl rfl) rfl rfl rfl).2.2.2.1⟩

/-- C19: on a live lock, every primitive succeeding, the counters being
`size_t` values. With `writersactive` clear, `rwlock_readlock` then
`rwlock_readunlock` both return `thrd_success` and leave the lock exactly as it
was; with `readersactive = 0` and `writersactive` clear, `rwlock_writelock`
then `rwlock_writeunlock`, and `rwlock_writetrylock` then `rwlock_writeunlock`,
both return `thrd_success` and leave the lock exactly as it was. -/
theorem acquire_release_roundtrip (e1 e2 : env) (rwl : rwlock)
    (hlive : rwl.valid = _RWLOCK_VALID) (hfree : rwl.mutex = false)
    (hlock1 : e1.mtx_lock_status = thrd_success)
    (hunlock1 : e1.mtx_unlock_status = thrd_success)
    (hlock2 : e2.mtx_lock_status = thrd_success)
    (hunlock2 : e2.mtx_unlock_status = thrd_success)
    (hsignal : e2.cnd_signal_status = thrd_success)
    (hbroadcast : e2.cnd_broadcast_status = thrd_success) :
    (rwl.writersactive = false → rwl.readersactive ≤ SIZE_MAX →
      ∃ r1 s1 r2, rwlock_readlock e1 (some rwl) = some r1 ∧ r1.status = thrd_success ∧
        r1.rwl = some s1 ∧ rwlock_readunlock e2 (some s1) = some r2 ∧
        r2.status = thrd_success ∧ r2.rwl = some rwl) ∧
    (rwl.readersactive = 0 → rwl.writersactive = false →
      ∃ r1 s1 r2, rwlock_writelock e1 (some rwl) = some r1 ∧ r1.status = thrd_success ∧
        r1.rwl = some s1 ∧ rwlock_writeunlock e2 (some s1) = some r2 ∧
        r2.status = thrd_success ∧ r2.rwl = some rwl) ∧
    (rwl.readersactive = 0 → rwl.writersactive = false →
      ∃ r1 s1 r2, rwlock_writetrylock e1 (some rwl) = some r1 ∧ r1.status = thrd_success ∧
        r1.rwl = some s1 ∧ rwlock_writeunlock e2 (some s1) = some r2 ∧
        r2.status = thrd_success ∧ r2.rwl = some rwl) := by
  rcases rwl with ⟨rw, ww, ra, wa, v, m⟩
  simp only at hlive hfree
  subst hlive hfree
  have hwu : ∃ r2, rwlock_writeunlock e2 (some ⟨rw, ww, 0, true, _RWLOCK_VALID, false⟩)
      = some r2 ∧ r2.status = thrd_success ∧
      r2.rwl = some ⟨rw, ww, 0, false, _RWLOCK_VALID, false⟩ := by
    by_cases h1 : rw = 0 <;> by_cases h2 : ww = 0 <;>
      simp [rwlock_writeunlock, mtx_lock, mtx_unlock, hlock2, hunlock2, hsignal, hbroadcast,
        h1, h2]
  refine ⟨?_, ?_, ?_⟩
  · intro hwa hra
    simp only at hwa hra
    subst hwa
    have hback := size_dec_inc ra hra
    have hrl : ∃ r1, rwlock_readlock e1 (some ⟨rw, ww, ra, false, _RWLOCK_VALID, false⟩)
        = some r1 ∧ r1.status = thrd_success ∧
        r1.rwl = some ⟨rw, ww, size_inc ra, false, _RWLOCK_VALID, false⟩ := by
      refine ⟨_, (by simp [rwlock_readlock, mtx_lock, mtx_unlock, hlock1, hunlock1]; rfl), ?_⟩
      exact ⟨rfl, rfl⟩
    have hru : ∃ r2,
        rwlock_readunlock e2 (some ⟨rw, ww, size_inc ra, false, _RWLOCK_VALID, false⟩)
          = some r2 ∧ r2.status = thrd_success ∧
        r2.rwl = some ⟨rw, ww, ra, false, _RWLOCK_VALID, false⟩ := by
      by_cases hs : ra = 0 ∧ 0 < ww
      · obtain ⟨rfl, hww⟩ := hs
        simp [rwlock_readunlock, mtx_lock, mtx_unlock, hlock2, hunlock2, hsignal, hback, hww]
      · simp [rwlock_readunlock, mtx_lock, mtx_unlock, hlock2, hunlock2, hback, hs]
    obtain ⟨r1, f1, f2, f3⟩ := hrl
    obtain ⟨r2, g1, g2, g3⟩ := hru
    exact ⟨r1, _, r2, f1, f2, f3, g1, g2, g3⟩
  · intro hra hwa
    simp only at hra hwa
    subst hra hwa
    have hwl : ∃ r1, rwlock_writelock e1 (some ⟨rw, ww, 0, false, _RWLOCK_VALID, false⟩)
        = some r1 ∧ r1.status = thrd_success ∧
        r1.rwl = some ⟨rw, ww, 0, true, _RWLOCK_VALID, false⟩ := by
      refine ⟨_, (by simp [rwlock_writelock, mtx_lock, mtx_unlock, hlock1, hunlock1]; rfl), ?_⟩
      exact ⟨rfl, rfl⟩
    obtain ⟨r1, f1, f2, f3⟩ := hwl
    obtain ⟨r2, g1, g2, g3⟩ := hwu
    exact ⟨r1, _, r2, f1, f2, f3, g1, g2, g3⟩
  · intro hra hwa
    simp only at hra hwa
    subst hra hwa
    have hwl : ∃ r1, rwlock_writetrylock e1 (some ⟨rw, ww, 0, false, _RWLOCK_VALID, false⟩)
        = some r1 ∧ r1.status = thrd_success ∧
        r1.rwl = some ⟨rw, ww, 0, true, _RWLOCK_VALID, false⟩ := by
      refine ⟨_, (by simp [rwlock_writetrylock, mtx_lock, mtx_unlock, hlock1, hunlock1]; rfl),
        ?_⟩
      exact ⟨rfl, rfl⟩
    obtain ⟨r1, f1, f2, f3⟩ := hwl
    obtain ⟨r2, g1, g2, g3⟩ := hwu
    exact ⟨r1, _, r2, f1, f2, f3, g1, g2, g3⟩

/-- C19, witness: a lock with two active readers and a waiting writer; a third
reader enters and leaves. -/
theorem acquire_release_roundtrip_witness :
    ∃ r1 s1 r2, rwlock_readlock env_ok (some ⟨0, 1, 2, false, _RWLOCK_VALID, false⟩) = some r1 ∧
      r1.status = thrd_success ∧ r1.rwl = some s1 ∧
      rwlock_readunlock env_ok (some s1) = some r2 ∧ r2.status = thrd_success ∧
      r2.rwl = some ⟨0, 1, 2, false, _RWLOCK_VALID, false⟩ :=
  (acquire_release_roundtrip env_ok env_ok ⟨0, 1, 2, false, _RWLOCK_VALID, false⟩
    rfl rfl rfl rfl rfl rfl rfl rfl).1 rfl (by decide)

/-- C20: 71 is a value `rand_r` may return; the interval `main` derives from it
is 0, and the remainder `i % self->interval` that `thread_routine` computes in
its first iteration is then undefined. -/
theorem interval_may_be_zero :
    71 ≤ RAND_MAX ∧ interval 71 = 0 ∧ update_due 0 (interval 71) = none :=
  ⟨by decide, by decide, by decide⟩

end Multithreading
